import Mathlib

/-!
# Baintwallet SMS-to-EVM: the custodial transaction engine

A shallow embedding of `src/backend/sms-handler.js` (class `SMSHandler`) and
`src/backend/wallet-service.js` (class `WalletService`).

* JavaScript strings are Lean `String`s (sequences of Unicode scalar values);
  `length` is counted in UTF-16 code units, as JavaScript does.
* The two `Map`s (`wallets`, `pendingTransactions`) are insertion-ordered
  association lists with the `get` / `has` / `set` / `delete` of a JS `Map`.
* Everything the code obtains from outside the two files (the `ethers` provider,
  `CryptoJS`, `Date.now()`, the random key generator) is one record `Chain`
  of answers; the model is a pure function of the stores and of that record.
* An `async` function that throws is an `Except String _` whose error carries
  `error.message`.
* Calls that leave the two classes are written to an event log, so that
  "is invoked" and "is never invoked" are statements about that log.
-/

namespace Baintwallet

/-! ## JavaScript string primitives -/

/-- The characters matched by the regular expression class `\s` and removed by
`String.prototype.trim` (ECMAScript WhiteSpace and LineTerminator). -/
def isJSWhiteSpace (c : Char) : Bool :=
  let n := c.toNat
  n == 0x09 || n == 0x0A || n == 0x0B || n == 0x0C || n == 0x0D || n == 0x20 ||
  n == 0xA0 || n == 0x1680 || (0x2000 ≤ n && n ≤ 0x200A) || n == 0x2028 ||
  n == 0x2029 || n == 0x202F || n == 0x205F || n == 0x3000 || n == 0xFEFF

/-- The characters of `s.trim()`. -/
def jsTrimChars (s : List Char) : List Char :=
  ((s.dropWhile isJSWhiteSpace).reverse.dropWhile isJSWhiteSpace).reverse

/-- The worker of `split(/\s+/)`: `cur` is the token being read (reversed) and
`inWS` tells that the previous character belonged to a separator. -/
def jsSplitGo : List Char → List Char → Bool → List String
  | [], cur, _ => [String.mk cur.reverse]
  | c :: cs, cur, inWS =>
    if isJSWhiteSpace c then
      if inWS then jsSplitGo cs [] true
      else String.mk cur.reverse :: jsSplitGo cs [] true
    else jsSplitGo cs (c :: cur) false

/-- The characters of a string split by `split(/\s+/)`. -/
def jsSplitWS (s : List Char) : List String :=
  jsSplitGo s [] false

/-- The array `message.trim().split(/\s+/)` of `processCommand`. -/
def messageParts (message : String) : List String :=
  jsSplitWS (jsTrimChars message.data)

/-- `String.prototype.toUpperCase`, character by character: ASCII letters are
mapped by the ASCII rule, every other character by the table `up` of the
Unicode full upper-case mapping, which is a parameter of the model. -/
def toUpperCase (up : Char → List Char) (s : String) : String :=
  String.mk (s.data.flatMap fun c => if c.toNat < 128 then [c.toUpper] else up c)

/-- The `length` of a JavaScript string: UTF-16 code units. -/
def jsLength (s : String) : Nat :=
  (s.data.map fun c => if c.toNat < 0x10000 then 1 else 2).sum

/-- `s.startsWith('0x')`. -/
def startsWith0x (s : String) : Bool :=
  match s.data with
  | '0' :: 'x' :: _ => true
  | _ => false

/-! ## `parseFloat`, as far as the amount check looks at it

`handleSend` uses `parseFloat(amount)` only through `isNaN(..)` and `.. <= 0`,
so the model computes the class of the result: not a number, negative, zero
or positive. `parseFloat` reads the longest prefix that is a
`StrDecimalLiteral` and ignores what follows it. -/

/-- The class of the Number returned by `parseFloat`. -/
inductive FloatClass where
  | nan
  | negative
  | zero
  | positive
  deriving DecidableEq, Repr

/-- Splits off the leading decimal digits. -/
def takeDigits : List Char → List Char × List Char
  | [] => ([], [])
  | c :: cs =>
    if c.isDigit then
      let r := takeDigits cs
      (c :: r.1, r.2)
    else ([], c :: cs)

/-- The value of a sequence of decimal digits. -/
def digitsValue (ds : List Char) : Nat :=
  ds.foldl (fun acc c => 10 * acc + (c.toNat - 48)) 0

/-- The `ExponentPart` at the head of the input, if any: `e` or `E`, an optional
sign and at least one digit. Without a digit there is no exponent part. -/
def readExponent : List Char → Int
  | c :: rest =>
    if c = 'e' ∨ c = 'E' then
      match rest with
      | '+' :: ds => digitsValue (takeDigits ds).1
      | '-' :: ds => - (digitsValue (takeDigits ds).1 : Int)
      | ds => digitsValue (takeDigits ds).1
    else 0
  | [] => 0

/-- The Number value of the mathematical value `m * 10 ^ e` is not zero: it is
zero when `m` is, and it underflows to zero when the value is at most half of
the smallest subnormal double, `2 ^ (-1075)` (round to nearest, ties to even). -/
def roundsToNonzero (m : Nat) (e : Int) : Bool :=
  m != 0 && (decide (0 ≤ e) || decide (10 ^ (-e).toNat < m * 2 ^ 1075))

/-- The class of an unsigned `StrUnsignedDecimalLiteral` prefix. -/
def unsignedClass (s : List Char) : FloatClass :=
  if "Infinity".data.isPrefixOf s then FloatClass.positive
  else
    let ip := takeDigits s
    let fp : List Char × List Char :=
      match ip.2 with
      | '.' :: r => takeDigits r
      | r => ([], r)
    if ip.1.isEmpty && fp.1.isEmpty then FloatClass.nan
    else
      let m := digitsValue (ip.1 ++ fp.1)
      let e := readExponent fp.2 - (fp.1.length : Int)
      if roundsToNonzero m e then FloatClass.positive else FloatClass.zero

/-- The class of `parseFloat(s)`: leading white space is skipped, then an
optional sign, then the unsigned literal. `-0` and `+0` are both `zero`. -/
def parseFloatClass (s : String) : FloatClass :=
  match s.data.dropWhile isJSWhiteSpace with
  | '-' :: r =>
    match unsignedClass r with
    | FloatClass.positive => FloatClass.negative
    | k => k
  | '+' :: r => unsignedClass r
  | r => unsignedClass r

/-- The condition `isNaN(parseFloat(amount)) || parseFloat(amount) <= 0` of
`handleSend`. -/
def amountRejected (amount : String) : Bool :=
  match parseFloatClass amount with
  | FloatClass.positive => false
  | _ => true

/-! ## The JavaScript `Map` -/

/-- A JavaScript `Map` with string keys: its entries in insertion order. -/
structure JSMap (α : Type) where
  entries : List (String × α)
  deriving DecidableEq, Repr

namespace JSMap

/-- The worker of `get`: the value of the first entry under the key. -/
def lookup {α : Type} (k : String) : List (String × α) → Option α
  | [] => none
  | (k1, v) :: rest => if k1 = k then some v else lookup k rest

/-- The worker of `set`: replaces the value in place, or appends a new entry. -/
def insert {α : Type} (k : String) (v : α) : List (String × α) → List (String × α)
  | [] => [(k, v)]
  | (k1, v1) :: rest => if k1 = k then (k, v) :: rest else (k1, v1) :: insert k v rest

/-- The worker of `delete`: drops the entry under the key. -/
def remove {α : Type} (k : String) : List (String × α) → List (String × α)
  | [] => []
  | (k1, v1) :: rest => if k1 = k then remove k rest else (k1, v1) :: remove k rest

/-- The number of entries under a key in a list of entries. -/
def occurrences {α : Type} (k : String) : List (String × α) → Nat
  | [] => 0
  | (k1, _) :: rest => (if k1 = k then 1 else 0) + occurrences k rest

/-- The value of `new Map()`. -/
def empty {α : Type} : JSMap α := ⟨[]⟩

/-- The value of `map.get(k)`; `none` stands for `undefined`. -/
def get {α : Type} (m : JSMap α) (k : String) : Option α := lookup k m.entries

/-- The value of `map.has(k)`. -/
def has {α : Type} (m : JSMap α) (k : String) : Bool := (m.get k).isSome

/-- The map after `map.set(k, v)`. -/
def set {α : Type} (m : JSMap α) (k : String) (v : α) : JSMap α := ⟨insert k v m.entries⟩

/-- The number of entries the map holds under a key; a JavaScript `Map` holds at
most one. -/
def count {α : Type} (m : JSMap α) (k : String) : Nat := occurrences k m.entries

/-- The map after `map.delete(k)`. -/
def delete {α : Type} (m : JSMap α) (k : String) : JSMap α := ⟨remove k m.entries⟩

end JSMap

/-! ## Data model -/

/-- The object stored in `WalletService.wallets`. -/
structure WalletRecord where
  address : String
  encryptedPrivateKey : String
  createdAt : String
  deriving DecidableEq, Repr

/-- The object stored in `SMSHandler.pendingTransactions`; `toAddress` is its
field `to`. -/
structure PendingTx where
  toAddress : String
  amount : String
  timestamp : Int
  deriving DecidableEq, Repr

/-- The mutable state of the two singletons: `walletService.wallets` and
`smsHandler.pendingTransactions`. -/
structure Store where
  wallets : JSMap WalletRecord
  pendingTransactions : JSMap PendingTx
  deriving DecidableEq, Repr

/-- The object passed to `wallet.sendTransaction` (the broadcast); `toAddress`
is its field `to`. -/
structure TxRequest where
  toAddress : String
  value : Int
  gasLimit : Nat
  gasPrice : Nat
  deriving DecidableEq, Repr

/-- The fields of the receipt of `tx.wait()` the code reads. -/
structure TxReceipt where
  hash : String
  blockNumber : Nat
  status : Nat
  deriving DecidableEq, Repr

/-- The object returned by `WalletService.sendTransaction`; `sender` is its
field `from` and `toAddress` its field `to`. -/
structure TransferResult where
  hash : String
  sender : String
  toAddress : String
  amount : String
  blockNumber : Nat
  status : String
  deriving DecidableEq, Repr

/-- The object returned by `WalletService.getBalance`; `usdValue` is always
`null` and is not stored. -/
structure BalanceInfo where
  balance : String
  formatted : String
  symbol : String
  chainId : String
  chainName : String
  deriving DecidableEq, Repr

/-- An element of the array returned by `getTransactionHistory`, with the
fields `handleHistory` prints. -/
structure HistoryTx where
  type : String
  amount : String
  symbol : String
  hash : String
  date : String
  deriving DecidableEq, Repr

/-- The calls the model records, in the order the code makes them. The first
six are the methods of `walletService` called by `SMSHandler`; the others are
the calls `WalletService` makes to `CryptoJS`, `ethers` and the provider. -/
inductive Event where
  | hasWallet (phoneNumber : String)
  | createWallet (phoneNumber : String)
  | getWalletAddress (phoneNumber : String)
  | getBalance (phoneNumber : String)
  | sendTransaction (phoneNumber toAddress amount : String)
  | getTransactionHistory (phoneNumber : String)
  | createRandom
  | encryptPrivateKey (phoneNumber : String)
  | decryptPrivateKey (phoneNumber : String)
  | providerGetBalance (address : String)
  | providerGetNetwork
  | providerGetFeeData
  | providerGetBlockNumber
  | broadcast (sender : String) (tx : TxRequest)
  | waitReceipt
  deriving DecidableEq, Repr

/-- What the world outside the two classes answers during one call of
`processCommand`. An `Except.error m` is a thrown error with message `m`. -/
structure Chain where
  /-- The Unicode upper-case mapping of the non-ASCII characters. -/
  upperTable : Char → List Char
  /-- The value of `Date.now()`, in milliseconds. -/
  now : Int
  /-- The value of `new Date().toISOString()`. -/
  isoDate : String
  /-- The value of `process.env.ENCRYPTION_KEY || 'default-key-change-in-production'`. -/
  encryptionKey : String
  /-- The `address` and `privateKey` of `ethers.Wallet.createRandom()`. -/
  createRandom : Except String (String × String)
  /-- The value of `CryptoJS.AES.encrypt(plaintext, key).toString()`. -/
  aesEncrypt : String → String → Except String String
  /-- The value of `CryptoJS.AES.decrypt(ciphertext, key).toString(CryptoJS.enc.Utf8)`. -/
  aesDecrypt : String → String → Except String String
  /-- The `address` of `new ethers.Wallet(privateKey, provider)`. -/
  walletOfKey : String → Except String String
  /-- The value of `ethers.isAddress(s)`. -/
  isAddress : String → Bool
  /-- The value of `ethers.parseEther(s)`. -/
  parseEther : String → Except String Int
  /-- The value of `provider.getBalance(address)`. -/
  getBalance : String → Except String Nat
  /-- The `gasPrice` of `provider.getFeeData()`; `none` stands for `null`. -/
  getFeeData : Except String (Option Nat)
  /-- The outcome of `wallet.sendTransaction(tx)` for the wallet of an address. -/
  sendTx : String → TxRequest → Except String Unit
  /-- The receipt of `tx.wait()`. -/
  wait : Except String TxReceipt
  /-- The `chainId` and `name` of `provider.getNetwork()`. -/
  getNetwork : Except String (Nat × String)
  /-- The value of `provider.getBlockNumber()`. -/
  getBlockNumber : Except String Nat
  /-- The value of `parseFloat(ethers.formatEther(balance)).toFixed(4)`. -/
  formatFixed4 : Nat → String

/-- The outcome of a method: what it returns or throws, and the calls it made. -/
structure Outcome (α : Type) where
  result : Except String α
  log : List Event

/-! ## `wallet-service.js` -/

namespace WalletService

/-- The key both `encryptPrivateKey` and `decryptPrivateKey` derive:
the template literal of the encryption key, a dash and the phone number. -/
def derivedKey (c : Chain) (phoneNumber : String) : String :=
  c.encryptionKey ++ "-" ++ phoneNumber

/-- `encryptPrivateKey(privateKey, phoneNumber)`. -/
def encryptPrivateKey (c : Chain) (privateKey phoneNumber : String) : Except String String :=
  c.aesEncrypt privateKey (derivedKey c phoneNumber)

/-- `decryptPrivateKey(encryptedKey, phoneNumber)`. -/
def decryptPrivateKey (c : Chain) (encryptedKey phoneNumber : String) : Except String String :=
  c.aesDecrypt encryptedKey (derivedKey c phoneNumber)

/-- `hasWallet(phoneNumber)`. -/
def hasWallet (wallets : JSMap WalletRecord) (phoneNumber : String) : Bool :=
  wallets.has phoneNumber

/-- The `try` block of `createWallet`: the result, the wallet map afterwards and
the calls made. -/
def createWalletBody (c : Chain) (wallets : JSMap WalletRecord) (phoneNumber : String) :
    Outcome String × JSMap WalletRecord :=
  if wallets.has phoneNumber then
    (⟨Except.error "Wallet already exists for this number", []⟩, wallets)
  else
    match c.createRandom with
    | Except.error m => (⟨Except.error m, [Event.createRandom]⟩, wallets)
    | Except.ok (address, privateKey) =>
      let log := [Event.createRandom, Event.encryptPrivateKey phoneNumber]
      match encryptPrivateKey c privateKey phoneNumber with
      | Except.error m => (⟨Except.error m, log⟩, wallets)
      | Except.ok encryptedPrivateKey =>
        (⟨Except.ok address, log⟩,
          wallets.set phoneNumber
            { address := address, encryptedPrivateKey := encryptedPrivateKey,
              createdAt := c.isoDate })

/-- `createWallet(phoneNumber)`: the returned object has the one field `address`. -/
def createWallet (c : Chain) (wallets : JSMap WalletRecord) (phoneNumber : String) :
    Outcome String × JSMap WalletRecord :=
  match createWalletBody c wallets phoneNumber with
  | (⟨Except.error m, log⟩, w) => (⟨Except.error ("Wallet creation failed: " ++ m), log⟩, w)
  | r => r

/-- `getWalletAddress(phoneNumber)`: the returned object has the one field
`address`. -/
def getWalletAddress (wallets : JSMap WalletRecord) (phoneNumber : String) : Except String String :=
  match wallets.get phoneNumber with
  | none => Except.error "Wallet not found"
  | some walletData => Except.ok walletData.address

/-- `getWallet(phoneNumber)`: the address of the `ethers.Wallet` built from the
decrypted private key. -/
def getWallet (c : Chain) (wallets : JSMap WalletRecord) (phoneNumber : String) : Outcome String :=
  match wallets.get phoneNumber with
  | none => ⟨Except.error "Wallet not found", []⟩
  | some walletData =>
    let log := [Event.decryptPrivateKey phoneNumber]
    match decryptPrivateKey c walletData.encryptedPrivateKey phoneNumber with
    | Except.error m => ⟨Except.error m, log⟩
    | Except.ok privateKey =>
      match c.walletOfKey privateKey with
      | Except.error m => ⟨Except.error m, log⟩
      | Except.ok address => ⟨Except.ok address, log⟩

/-- The `try` block of `getBalance`. -/
def getBalanceBody (c : Chain) (wallets : JSMap WalletRecord) (phoneNumber : String) :
    Outcome BalanceInfo :=
  match wallets.get phoneNumber with
  | none => ⟨Except.error "Wallet not found", []⟩
  | some walletData =>
    let log1 := [Event.providerGetBalance walletData.address]
    match c.getBalance walletData.address with
    | Except.error m => ⟨Except.error m, log1⟩
    | Except.ok balance =>
      let log2 := log1 ++ [Event.providerGetNetwork]
      match c.getNetwork with
      | Except.error m => ⟨Except.error m, log2⟩
      | Except.ok (chainId, name) =>
        ⟨Except.ok
          { balance := toString balance, formatted := c.formatFixed4 balance, symbol := "ETH",
            chainId := toString chainId, chainName := name }, log2⟩

/-- `getBalance(phoneNumber)`. -/
def getBalance (c : Chain) (wallets : JSMap WalletRecord) (phoneNumber : String) :
    Outcome BalanceInfo :=
  match getBalanceBody c wallets phoneNumber with
  | ⟨Except.error m, log⟩ => ⟨Except.error ("Failed to fetch balance: " ++ m), log⟩
  | r => r

/-- The constant `gasLimit = 21000n` of `sendTransaction`. -/
def gasLimit : Nat := 21000

/-- The message of the `TypeError` of `feeData.gasPrice * gasLimit` when
`gasPrice` is `null` (the text V8 gives it). -/
def bigIntMixMessage : String :=
  "Cannot mix BigInt and other types, use explicit conversions"

/-- The `try` block of `sendTransaction`. -/
def sendTransactionBody (c : Chain) (wallets : JSMap WalletRecord)
    (phoneNumber toAddress amount : String) : Outcome TransferResult :=
  match getWallet c wallets phoneNumber with
  | ⟨Except.error m, log0⟩ => ⟨Except.error m, log0⟩
  | ⟨Except.ok walletAddress, log0⟩ =>
    if !c.isAddress toAddress then ⟨Except.error "Invalid recipient address", log0⟩
    else
      match c.parseEther amount with
      | Except.error m => ⟨Except.error m, log0⟩
      | Except.ok amountInWei =>
        let log1 := log0 ++ [Event.providerGetBalance walletAddress]
        match c.getBalance walletAddress with
        | Except.error m => ⟨Except.error m, log1⟩
        | Except.ok balance =>
          if (balance : Int) < amountInWei then ⟨Except.error "Insufficient balance", log1⟩
          else
            let log2 := log1 ++ [Event.providerGetFeeData]
            match c.getFeeData with
            | Except.error m => ⟨Except.error m, log2⟩
            | Except.ok none => ⟨Except.error bigIntMixMessage, log2⟩
            | Except.ok (some gasPrice) =>
              let totalCost : Int := amountInWei + ((gasPrice * gasLimit : Nat) : Int)
              if (balance : Int) < totalCost then
                ⟨Except.error "Insufficient balance for transaction + gas", log2⟩
              else
                let tx : TxRequest :=
                  { toAddress := toAddress, value := amountInWei, gasLimit := gasLimit,
                    gasPrice := gasPrice }
                let log3 := log2 ++ [Event.broadcast walletAddress tx]
                match c.sendTx walletAddress tx with
                | Except.error m => ⟨Except.error m, log3⟩
                | Except.ok _ =>
                  let log4 := log3 ++ [Event.waitReceipt]
                  match c.wait with
                  | Except.error m => ⟨Except.error m, log4⟩
                  | Except.ok receipt =>
                    ⟨Except.ok
                      { hash := receipt.hash, sender := walletAddress, toAddress := toAddress,
                        amount := amount, blockNumber := receipt.blockNumber,
                        status := if receipt.status = 1 then "success" else "failed" }, log4⟩

/-- `sendTransaction(phoneNumber, toAddress, amount)`. -/
def sendTransaction (c : Chain) (wallets : JSMap WalletRecord)
    (phoneNumber toAddress amount : String) : Outcome TransferResult :=
  match sendTransactionBody c wallets phoneNumber toAddress amount with
  | ⟨Except.error m, log⟩ => ⟨Except.error ("Transaction failed: " ++ m), log⟩
  | r => r

/-- `getTransactionHistory(phoneNumber)`: `history` is the empty array on every
path, and the `catch` returns an empty array too; the method never throws. -/
def getTransactionHistory (c : Chain) (wallets : JSMap WalletRecord) (phoneNumber : String) :
    List HistoryTx × List Event :=
  match wallets.get phoneNumber with
  | none => ([], [])
  | some _ =>
    match c.getBlockNumber with
    | Except.error _ => ([], [Event.providerGetBlockNumber])
    | Except.ok _ => ([], [Event.providerGetBlockNumber])

end WalletService

/-! ## `sms-handler.js` -/

/-- The outcome of a handler: the reply it returns or the message of the error
it throws, the state afterwards and the calls made. -/
structure Step where
  result : Except String String
  store : Store
  log : List Event

/-- The outcome of `processCommand`: the reply, the state afterwards and the
calls made. -/
structure Reply where
  reply : String
  store : Store
  log : List Event

namespace SMSHandler

/-- The reply to an identity without a wallet. -/
def onboardingReply : String :=
  "Welcome to Baintwallet! 🎉\n\nReply START to create your wallet."

/-- The reply of `START` to an identity that has a wallet. -/
def alreadyHaveWalletReply : String :=
  "You already have a wallet! 👍\n\nReply WALLET to see your address or HELP for commands."

/-- The reply of `START` after a wallet was created. -/
def walletCreatedReply (address : String) : String :=
  "✅ Wallet created!\n\n" ++
  "Address: " ++ address ++ "\n\n" ++
  "⚠️ IMPORTANT: Keep your phone secure. Your private key is encrypted and stored securely.\n\n" ++
  "Reply HELP for available commands."

/-- The reply of `BALANCE`; `balance.usdValue || 'N/A'` is `'N/A'`, as
`usdValue` is `null`. -/
def balanceReply (balance : BalanceInfo) : String :=
  "💰 Your Balance:\n\n" ++
  balance.formatted ++ " " ++ balance.symbol ++ "\n" ++
  "($" ++ "N/A" ++ ")\n\n" ++
  "Chain: " ++ balance.chainName

/-- The reply of `WALLET`. -/
def walletReply (address : String) : String :=
  "🏦 Your Wallet:\n\n" ++
  address ++ "\n\n" ++
  "Reply BALANCE to check your balance."

/-- The usage-format reply of `SEND`. -/
def invalidFormatReply : String :=
  "❌ Invalid format.\n\n" ++
  "Use: SEND <address> <amount>\n\n" ++
  "Example: SEND 0x742d35Cc6634C0532925a3b844Bc9e7595f0bEb 0.01"

/-- The invalid-address reply of `SEND`. -/
def invalidAddressReply : String :=
  "❌ Invalid address format. Address must start with 0x and be 42 characters long."

/-- The invalid-amount reply of `SEND`. -/
def invalidAmountReply : String :=
  "❌ Invalid amount. Must be a positive number."

/-- The confirmation prompt of `SEND`. -/
def sendPromptReply (toAddress amount : String) : String :=
  "📤 Send Transaction:\n\n" ++
  "To: " ++ toAddress ++ "\n" ++
  "Amount: " ++ amount ++ " ETH\n\n" ++
  "⚠️ Reply CONFIRM to proceed or CANCEL to abort.\n\n" ++
  "This transaction cannot be reversed!"

/-- The no-pending-transaction reply of `CONFIRM`. -/
def noPendingReply : String :=
  "❌ No pending transaction found.\n\nUse SEND <address> <amount> first."

/-- The transaction-expired reply of `CONFIRM`. -/
def expiredReply : String :=
  "❌ Transaction expired. Please create a new transaction."

/-- The reply of `CONFIRM` after a transfer. -/
def transactionSentReply (hash amount toAddress : String) : String :=
  "✅ Transaction Sent!\n\n" ++
  "Hash: " ++ hash ++ "\n" ++
  "Amount: " ++ amount ++ " ETH\n" ++
  "To: " ++ toAddress ++ "\n\n" ++
  "Track at: https://etherscan.io/tx/" ++ hash

/-- The nothing-to-cancel reply of `CANCEL`. -/
def nothingToCancelReply : String :=
  "ℹ️ No pending transaction to cancel."

/-- The transaction-cancelled reply of `CANCEL`. -/
def cancelledReply : String :=
  "✅ Transaction cancelled."

/-- The reply of `HISTORY` for an empty history. -/
def noHistoryReply : String :=
  "📜 No transaction history yet."

/-- The reply of `HELP`. -/
def handleHelp : String :=
  "📱 Baintwallet Commands:\n\n" ++
  "START - Create your wallet\n" ++
  "BALANCE - Check balance\n" ++
  "WALLET - Get your address\n" ++
  "SEND <addr> <amt> - Send tokens\n" ++
  "CONFIRM - Confirm transaction\n" ++
  "CANCEL - Cancel transaction\n" ++
  "HISTORY - View transactions\n" ++
  "HELP - Show this message\n\n" ++
  "Example:\n" ++
  "SEND 0x742d35Cc... 0.01"

/-- The reply of the `default` branch of the `switch`. -/
def unknownCommandReply (cmd : String) : String :=
  "Unknown command: " ++ cmd ++ "\n\nReply HELP for available commands."

/-- The ten minutes of `handleConfirm`, `10 * 60 * 1000` milliseconds. -/
def ttlMs : Int := 10 * 60 * 1000

/-- `handleStart(phoneNumber)`. -/
def handleStart (c : Chain) (s : Store) (phoneNumber : String) : Step :=
  if WalletService.hasWallet s.wallets phoneNumber then
    ⟨Except.ok alreadyHaveWalletReply, s, [Event.hasWallet phoneNumber]⟩
  else
    let r := WalletService.createWallet c s.wallets phoneNumber
    let log := [Event.hasWallet phoneNumber, Event.createWallet phoneNumber] ++ r.1.log
    let s1 : Store := { s with wallets := r.2 }
    match r.1.result with
    | Except.error _ => ⟨Except.error "Failed to create wallet. Please try again.", s1, log⟩
    | Except.ok address => ⟨Except.ok (walletCreatedReply address), s1, log⟩

/-- `handleBalance(phoneNumber)`. -/
def handleBalance (c : Chain) (s : Store) (phoneNumber : String) : Step :=
  let r := WalletService.getBalance c s.wallets phoneNumber
  let log := Event.getBalance phoneNumber :: r.log
  match r.result with
  | Except.error _ => ⟨Except.error "Failed to fetch balance. Please try again.", s, log⟩
  | Except.ok balance => ⟨Except.ok (balanceReply balance), s, log⟩

/-- `handleWallet(phoneNumber)`. -/
def handleWallet (s : Store) (phoneNumber : String) : Step :=
  match WalletService.getWalletAddress s.wallets phoneNumber with
  | Except.error _ =>
    ⟨Except.error "Failed to retrieve wallet info.", s, [Event.getWalletAddress phoneNumber]⟩
  | Except.ok address => ⟨Except.ok (walletReply address), s, [Event.getWalletAddress phoneNumber]⟩

/-- `handleSend(phoneNumber, parts)`; nothing in its `try` block throws. -/
def handleSend (c : Chain) (s : Store) (phoneNumber : String) (parts : List String) : Step :=
  if parts.length < 3 then ⟨Except.ok invalidFormatReply, s, []⟩
  else
    let toAddress := parts.getD 1 ""
    let amount := parts.getD 2 ""
    if !startsWith0x toAddress || jsLength toAddress != 42 then
      ⟨Except.ok invalidAddressReply, s, []⟩
    else if amountRejected amount then
      ⟨Except.ok invalidAmountReply, s, []⟩
    else
      let pending : PendingTx := { toAddress := toAddress, amount := amount, timestamp := c.now }
      ⟨Except.ok (sendPromptReply toAddress amount),
        { s with pendingTransactions := s.pendingTransactions.set phoneNumber pending }, []⟩

/-- `handleConfirm(phoneNumber)`. -/
def handleConfirm (c : Chain) (s : Store) (phoneNumber : String) : Step :=
  match s.pendingTransactions.get phoneNumber with
  | none => ⟨Except.ok noPendingReply, s, []⟩
  | some pending =>
    if c.now - pending.timestamp > ttlMs then
      ⟨Except.ok expiredReply,
        { s with pendingTransactions := s.pendingTransactions.delete phoneNumber }, []⟩
    else
      let r := WalletService.sendTransaction c s.wallets phoneNumber pending.toAddress pending.amount
      let log := Event.sendTransaction phoneNumber pending.toAddress pending.amount :: r.log
      let s1 : Store := { s with pendingTransactions := s.pendingTransactions.delete phoneNumber }
      match r.result with
      | Except.ok result =>
        ⟨Except.ok (transactionSentReply result.hash pending.amount pending.toAddress), s1, log⟩
      | Except.error m => ⟨Except.error ("Transaction failed: " ++ m), s1, log⟩

/-- `handleCancel(phoneNumber)`. -/
def handleCancel (s : Store) (phoneNumber : String) : Step :=
  match s.pendingTransactions.get phoneNumber with
  | none => ⟨Except.ok nothingToCancelReply, s, []⟩
  | some _ =>
    ⟨Except.ok cancelledReply,
      { s with pendingTransactions := s.pendingTransactions.delete phoneNumber }, []⟩

/-- The characters of `s.substring(0, n)`: the first `n` UTF-16 code units. A
character of two code units cut in the middle leaves a lone surrogate, which
leaves the process as U+FFFD when the reply is written out as UTF-8. -/
def jsSubstringFrom0 : Nat → List Char → List Char
  | _, [] => []
  | n, ch :: rest =>
    if n = 0 then []
    else if ch.toNat < 0x10000 then ch :: jsSubstringFrom0 (n - 1) rest
    else if n = 1 then [Char.ofNat 0xFFFD]
    else ch :: jsSubstringFrom0 (n - 2) rest

/-- The two lines and the blank line `handleHistory` prints for the entry at
`index`. -/
def historyEntryText (index : Nat) (tx : HistoryTx) : String :=
  toString (index + 1) ++ ". " ++ tx.type ++ " " ++ tx.amount ++ " " ++ tx.symbol ++ "\n" ++
  "   " ++ String.mk (jsSubstringFrom0 10 tx.hash.data) ++ "...\n" ++
  "   " ++ tx.date ++ "\n\n"

/-- `handleHistory(phoneNumber)`; `getTransactionHistory` never throws. -/
def handleHistory (c : Chain) (s : Store) (phoneNumber : String) : Step :=
  let r := WalletService.getTransactionHistory c s.wallets phoneNumber
  let log := Event.getTransactionHistory phoneNumber :: r.2
  if r.1.length = 0 then ⟨Except.ok noHistoryReply, s, log⟩
  else
    let response :=
      ((r.1.take 5).enum.map fun e => historyEntryText e.1 e.2).foldl (· ++ ·)
        "📜 Recent Transactions:\n\n"
    ⟨Except.ok (response ++ "Reply WALLET for your address."), s, log⟩

/-- The `switch (cmd)` of `processCommand`. -/
def dispatch (c : Chain) (s : Store) (phoneNumber cmd : String) (parts : List String) : Step :=
  if cmd = "START" then handleStart c s phoneNumber
  else if cmd = "BALANCE" ∨ cmd = "BAL" then handleBalance c s phoneNumber
  else if cmd = "WALLET" ∨ cmd = "ADDRESS" then handleWallet s phoneNumber
  else if cmd = "SEND" then handleSend c s phoneNumber parts
  else if cmd = "CONFIRM" then handleConfirm c s phoneNumber
  else if cmd = "CANCEL" then handleCancel s phoneNumber
  else if cmd = "HISTORY" ∨ cmd = "TX" then handleHistory c s phoneNumber
  else if cmd = "HELP" then ⟨Except.ok handleHelp, s, []⟩
  else ⟨Except.ok (unknownCommandReply cmd), s, []⟩

/-- The value of `cmd`: `parts[0].toUpperCase()`. The array of `split` is never
empty, so `parts[0]` is a string. -/
def commandOf (c : Chain) (parts : List String) : String :=
  toUpperCase c.upperTable (parts.headD "")

/-- `processCommand(phoneNumber, message)` for a string `message`. The unused
constant `command` is left out. -/
def processCommand (c : Chain) (s : Store) (phoneNumber message : String) : Reply :=
  let parts := messageParts message
  let cmd := commandOf c parts
  if cmd ≠ "HELP" ∧ cmd ≠ "START" then
    if !WalletService.hasWallet s.wallets phoneNumber then
      ⟨onboardingReply, s, [Event.hasWallet phoneNumber]⟩
    else
      let step := dispatch c s phoneNumber cmd parts
      match step.result with
      | Except.ok reply => ⟨reply, step.store, Event.hasWallet phoneNumber :: step.log⟩
      | Except.error m => ⟨"Error: " ++ m, step.store, Event.hasWallet phoneNumber :: step.log⟩
  else
    let step := dispatch c s phoneNumber cmd parts
    match step.result with
    | Except.ok reply => ⟨reply, step.store, step.log⟩
    | Except.error m => ⟨"Error: " ++ m, step.store, step.log⟩

end SMSHandler

/-! ## Sample answers of the outside world, for the concrete instances -/

/-- A destination of the shape `SEND` accepts: `0x` and forty hex digits. -/
def sampleAddress : String := "0xAAAAAAAAAAAAAAAAAAAAAAAAAAAAAAAAAAAAAAAA"

/-- An outside world in which every call succeeds: the balance is `10 ^ 18`
wei, the gas price `10 ^ 9` wei, and an amount is parsed as `10 ^ 16` wei. The
upper-case table is never consulted on ASCII text. -/
def sampleChain : Chain where
  upperTable := fun ch => [ch]
  now := 1000000
  isoDate := "2024-01-01T00:00:00.000Z"
  encryptionKey := "default-key-change-in-production"
  createRandom := Except.ok ("0xBBBBBBBBBBBBBBBBBBBBBBBBBBBBBBBBBBBBBBBB", "0x01")
  aesEncrypt := fun plaintext key => Except.ok (key ++ ":" ++ plaintext)
  aesDecrypt := fun _ _ => Except.ok "0x01"
  walletOfKey := fun _ => Except.ok "0xBBBBBBBBBBBBBBBBBBBBBBBBBBBBBBBBBBBBBBBB"
  isAddress := fun _ => true
  parseEther := fun _ => Except.ok 10000000000000000
  getBalance := fun _ => Except.ok 1000000000000000000
  getFeeData := Except.ok (some 1000000000)
  sendTx := fun _ _ => Except.ok ()
  wait := Except.ok { hash := "0xabc", blockNumber := 7, status := 1 }
  getNetwork := Except.ok (1, "mainnet")
  getBlockNumber := Except.ok 100
  formatFixed4 := fun _ => "1.0000"

/-- The wallet record of the sample identity. -/
def sampleWallet : WalletRecord :=
  { address := "0xBBBBBBBBBBBBBBBBBBBBBBBBBBBBBBBBBBBBBBBB",
    encryptedPrivateKey := "ciphertext", createdAt := "2024-01-01T00:00:00.000Z" }

/-- A state in which `+15550001` has a wallet and a pending transfer stamped at
time `900000`, and `+15550002` has a pending transfer too. -/
def sampleStore : Store :=
  { wallets := ⟨[("+15550001", sampleWallet)]⟩,
    pendingTransactions :=
      ⟨[("+15550001", { toAddress := sampleAddress, amount := "1", timestamp := 900000 }),
        ("+15550002", { toAddress := sampleAddress, amount := "2", timestamp := 5 })]⟩ }

/-- A state in which `+15550001` has a wallet and nothing is pending. -/
def readyStore : Store :=
  { wallets := ⟨[("+15550001", sampleWallet)]⟩, pendingTransactions := ⟨[]⟩ }

/-! ## Observations on the event log and on messages -/

/-- The calls of `walletService.sendTransaction` in a log, with their arguments
`(phoneNumber, toAddress, amount)`. -/
def sendTransactionCalls (log : List Event) : List (String × String × String) :=
  log.filterMap fun e =>
    match e with
    | Event.sendTransaction p t a => some (p, t, a)
    | _ => none

/-- The broadcasts (`wallet.sendTransaction`) in a log: the address of the
signing wallet and the transaction request. -/
def broadcasts (log : List Event) : List (String × TxRequest) :=
  log.filterMap fun e =>
    match e with
    | Event.broadcast sender tx => some (sender, tx)
    | _ => none

/-- A string without white space, as every element of `parts` is. -/
def isToken (s : String) : Bool := s.data.all fun ch => !isJSWhiteSpace ch

/-- The sample world with a balance of `10 ^ 16` wei: enough for the amount,
not for the amount and the fee. -/
def tightChain : Chain :=
  { sampleChain with getBalance := fun _ => Except.ok 10000000000000000 }

/-- The decryptions of a stored private key in a log: the identities whose key
was decrypted. -/
def decryptions (log : List Event) : List String :=
  log.filterMap fun e =>
    match e with
    | Event.decryptPrivateKey p => some p
    | _ => none

/-- The sample world in which no destination is a well-formed address. -/
def strictChain : Chain :=
  { sampleChain with isAddress := fun _ => false }

/-! ## Two overlapping calls of `processCommand(id, "CONFIRM")`

JavaScript runs the code between two `await`s without interruption, so a call
of `processCommand(id, "CONFIRM")` is two atomic steps: the first runs up to
`await walletService.sendTransaction(..)` (the wallet guard, the lookup of the
pending entry, the expiry check and the call of `sendTransaction`, which reads
the wallet map as it is then), the second runs from the settling of that
promise (the `delete`, the reply). A schedule says which of two calls takes its
next step. -/

/-- Where a call of `processCommand(id, "CONFIRM")` stands: not started,
suspended at `await walletService.sendTransaction(..)` with the entry it read
and the outcome the transfer is going to have, or returned with a reply. -/
inductive ConfirmTask where
  | fresh
  | awaiting (pending : PendingTx) (outcome : Outcome TransferResult)
  | finished (reply : String)

/-- The first step of `processCommand(id, "CONFIRM")`, up to the `await` of the
transfer. -/
def confirmBegin (c : Chain) (s : Store) (phoneNumber : String) :
    ConfirmTask × Store × List Event :=
  if !WalletService.hasWallet s.wallets phoneNumber then
    (ConfirmTask.finished SMSHandler.onboardingReply, s, [Event.hasWallet phoneNumber])
  else
    match s.pendingTransactions.get phoneNumber with
    | none => (ConfirmTask.finished SMSHandler.noPendingReply, s, [Event.hasWallet phoneNumber])
    | some pending =>
      if c.now - pending.timestamp > SMSHandler.ttlMs then
        (ConfirmTask.finished SMSHandler.expiredReply,
          { s with pendingTransactions := s.pendingTransactions.delete phoneNumber },
          [Event.hasWallet phoneNumber])
      else
        (ConfirmTask.awaiting pending
            (WalletService.sendTransaction c s.wallets phoneNumber pending.toAddress
              pending.amount), s,
          [Event.hasWallet phoneNumber,
            Event.sendTransaction phoneNumber pending.toAddress pending.amount])

/-- The second step of `processCommand(id, "CONFIRM")`, from the settling of the
transfer: the entry is deleted and the reply built, in the `try` block or in
the `catch` block. The calls the transfer made are logged here. -/
def confirmResume (s : Store) (phoneNumber : String) (pending : PendingTx)
    (outcome : Outcome TransferResult) : String × Store × List Event :=
  let s1 : Store := { s with pendingTransactions := s.pendingTransactions.delete phoneNumber }
  match outcome.result with
  | Except.ok result =>
    (SMSHandler.transactionSentReply result.hash pending.amount pending.toAddress, s1,
      outcome.log)
  | Except.error m => ("Error: " ++ ("Transaction failed: " ++ m), s1, outcome.log)

/-- The state of two calls of `processCommand(id, "CONFIRM")` under way. -/
structure RaceState where
  store : Store
  log : List Event
  first : ConfirmTask
  second : ConfirmTask

/-- The next step of a task in a state: the task afterwards, the store and the
calls made. A task that has returned does nothing. -/
def taskStep (c : Chain) (s : Store) (phoneNumber : String) :
    ConfirmTask → ConfirmTask × Store × List Event
  | ConfirmTask.fresh => confirmBegin c s phoneNumber
  | ConfirmTask.awaiting pending outcome =>
    let r := confirmResume s phoneNumber pending outcome
    (ConfirmTask.finished r.1, r.2.1, r.2.2)
  | ConfirmTask.finished reply => (ConfirmTask.finished reply, s, [])

/-- One step of the schedule: `false` lets the first call run, in the world
`c1`, and `true` the second, in the world `c2`. -/
def raceStep (c1 c2 : Chain) (phoneNumber : String) (st : RaceState) (second : Bool) :
    RaceState :=
  if second then
    let r := taskStep c2 st.store phoneNumber st.second
    { st with store := r.2.1, log := st.log ++ r.2.2, second := r.1 }
  else
    let r := taskStep c1 st.store phoneNumber st.first
    { st with store := r.2.1, log := st.log ++ r.2.2, first := r.1 }

/-- Two calls of `processCommand(id, "CONFIRM")` run under a schedule, from a
store. -/
def runRace (c1 c2 : Chain) (phoneNumber : String) (s : Store) (schedule : List Bool) :
    RaceState :=
  schedule.foldl (raceStep c1 c2 phoneNumber)
    { store := s, log := [], first := ConfirmTask.fresh, second := ConfirmTask.fresh }

/-- The reply of a task that has returned. -/
def ConfirmTask.reply? : ConfirmTask → Option String
  | ConfirmTask.finished reply => some reply
  | _ => none

/-- The schedules in which each call takes its first step before either takes
its second. -/
def overlappingSchedules : List (List Bool) :=
  [[false, true, false, true], [false, true, true, false],
    [true, false, false, true], [true, false, true, false]]

/-! ## Runs that differ in the text of the errors -/

/-- Two outcomes that are the same value, or both an error, whatever its
message. -/
def sameUpToMessage {α : Type} (a b : Except String α) : Prop :=
  match a, b with
  | Except.ok x, Except.ok y => x = y
  | Except.error _, Except.error _ => True
  | _, _ => False

/-- Two worlds that give the same answers, except for the message of the errors
raised by the calls that can fail. -/
structure SameUpToErrorText (c1 c2 : Chain) : Prop where
  upperTable : c1.upperTable = c2.upperTable
  now : c1.now = c2.now
  isoDate : c1.isoDate = c2.isoDate
  encryptionKey : c1.encryptionKey = c2.encryptionKey
  createRandom : sameUpToMessage c1.createRandom c2.createRandom
  aesEncrypt : ∀ p k, sameUpToMessage (c1.aesEncrypt p k) (c2.aesEncrypt p k)
  aesDecrypt : ∀ e k, sameUpToMessage (c1.aesDecrypt e k) (c2.aesDecrypt e k)
  walletOfKey : ∀ k, sameUpToMessage (c1.walletOfKey k) (c2.walletOfKey k)
  isAddress : c1.isAddress = c2.isAddress
  parseEther : ∀ a, sameUpToMessage (c1.parseEther a) (c2.parseEther a)
  getBalance : ∀ a, sameUpToMessage (c1.getBalance a) (c2.getBalance a)
  getFeeData : sameUpToMessage c1.getFeeData c2.getFeeData
  sendTx : ∀ a tx, sameUpToMessage (c1.sendTx a tx) (c2.sendTx a tx)
  wait : sameUpToMessage c1.wait c2.wait
  getNetwork : sameUpToMessage c1.getNetwork c2.getNetwork
  getBlockNumber : sameUpToMessage c1.getBlockNumber c2.getBlockNumber
  formatFixed4 : c1.formatFixed4 = c2.formatFixed4

/-- The sample world in which the balance lookup fails with a given message. -/
def failingChain (message : String) : Chain :=
  { sampleChain with getBalance := fun _ => Except.error message }

/-! ## `processCommand` with the statements before its `try` -/

/-- `processCommand(phoneNumber, message)` with the error the statements before
the `try` can raise on a string: `parts[0].toUpperCase()` throws a `TypeError`
when `parts[0]` is `undefined`. What follows runs inside the `try`, whose
`catch` returns a reply. -/
def SMSHandler.processCommandChecked (c : Chain) (s : Store) (phoneNumber message : String) :
    Except String Reply :=
  match (messageParts message).head? with
  | none => Except.error "Cannot read properties of undefined (reading 'toUpperCase')"
  | some _ => Except.ok (SMSHandler.processCommand c s phoneNumber message)

/-! ## Messages written token by token -/

/-- A first token followed by separators and further tokens. -/
def spacedBody (first : String) : List (List Char × String) → List Char
  | [] => first.data
  | p :: ps => first.data ++ p.1 ++ spacedBody p.2 ps

/-- The message made of leading white space, a first token, further tokens each
after its separator, and trailing white space. -/
def spaced (lead : List Char) (first : String) (rest : List (List Char × String))
    (trail : List Char) : String :=
  String.mk (lead ++ spacedBody first rest ++ trail)

/-- The lead and the trail are white space, the separators are white space and
not empty, and the tokens are without white space and not empty. -/
def wellSpaced (lead : List Char) (first : String) (rest : List (List Char × String))
    (trail : List Char) : Prop :=
  lead.all isJSWhiteSpace = true ∧ trail.all isJSWhiteSpace = true ∧
  isToken first = true ∧ first ≠ "" ∧
  ∀ p ∈ rest, p.1 ≠ [] ∧ p.1.all isJSWhiteSpace = true ∧ isToken p.2 = true ∧ p.2 ≠ ""

/-! ## Sequences of messages -/

/-- One inbound message: the answers of the outside world while it is
processed, the identity and the text. -/
structure Inbound where
  chain : Chain
  phoneNumber : String
  message : String

/-- The state of a process that has just started: both maps empty. -/
def emptyStore : Store := { wallets := JSMap.empty, pendingTransactions := JSMap.empty }

/-- The state after `processCommand` has handled the messages one after the
other. -/
def runCommands (s : Store) (inbound : List Inbound) : Store :=
  inbound.foldl
    (fun st m => (SMSHandler.processCommand m.chain st m.phoneNumber m.message).store) s

/-- The entry passed the checks of `handleSend`: the destination starts with
`0x` and has length 42, and the amount passed the amount check. -/
def PendingTx.checked (p : PendingTx) : Prop :=
  startsWith0x p.toAddress = true ∧ jsLength p.toAddress = 42 ∧ amountRejected p.amount = false

/-- The ways `processCommand` for an identity can change the state: not at all,
by a first wallet record for the identity, by a checked pending entry for an
identity that has a wallet, or by the removal of the pending entry of the
identity. -/
def StoreStep (s s1 : Store) (id : String) : Prop :=
  s1 = s ∨
  (s.wallets.has id = false ∧ ∃ record, s1 = { s with wallets := s.wallets.set id record }) ∨
  (s.wallets.has id = true ∧ ∃ p : PendingTx, p.checked ∧
    s1 = { s with pendingTransactions := s.pendingTransactions.set id p }) ∨
  s1 = { s with pendingTransactions := s.pendingTransactions.delete id }

/-- A cipher for the concrete instances: the ciphertext is the key followed by
the plaintext. -/
def cipherChain : Chain :=
  { sampleChain with
    aesEncrypt := fun plaintext key => Except.ok (key ++ plaintext)
    aesDecrypt := fun ciphertext key => Except.ok (String.mk (ciphertext.data.drop key.length)) }

/-- Three messages of `+15550001` to a process that has just started: `START`,
a valid `SEND`, and `BALANCE`. -/
def sampleInbound : List Inbound :=
  [⟨sampleChain, "+15550001", "START"⟩,
    ⟨sampleChain, "+15550001", "SEND 0xAAAAAAAAAAAAAAAAAAAAAAAAAAAAAAAAAAAAAAAA 1"⟩,
    ⟨sampleChain, "+15550001", "BALANCE"⟩]

/-! ## Lemmas on the `Map` -/

theorem JSMap.lookup_insert_same {α : Type} (k : String) (v : α) (l : List (String × α)) :
    JSMap.lookup k (JSMap.insert k v l) = some v := by
  induction l with
  | nil => simp [JSMap.insert, JSMap.lookup]
  | cons e rest ih =>
    obtain ⟨k1, v1⟩ := e
    by_cases h : k1 = k
    · simp [JSMap.insert, JSMap.lookup, h]
    · simp [JSMap.insert, JSMap.lookup, h, ih]

theorem JSMap.lookup_insert_other {α : Type} (k j : String) (v : α) (l : List (String × α))
    (h : j ≠ k) : JSMap.lookup j (JSMap.insert k v l) = JSMap.lookup j l := by
  induction l with
  | nil => simp [JSMap.insert, JSMap.lookup, Ne.symm h]
  | cons e rest ih =>
    obtain ⟨k1, v1⟩ := e
    by_cases h1 : k1 = k
    · subst h1
      simp [JSMap.insert, JSMap.lookup, Ne.symm h]
    · by_cases h2 : k1 = j
      · subst h2
        simp [JSMap.insert, JSMap.lookup, h1]
      · simp [JSMap.insert, JSMap.lookup, h1, h2, ih]

theorem JSMap.lookup_remove_same {α : Type} (k : String) (l : List (String × α)) :
    JSMap.lookup k (JSMap.remove k l) = none := by
  induction l with
  | nil => simp [JSMap.remove, JSMap.lookup]
  | cons e rest ih =>
    obtain ⟨k1, v1⟩ := e
    by_cases h : k1 = k
    · simp [JSMap.remove, h, ih]
    · simp [JSMap.remove, h, JSMap.lookup, ih]

theorem JSMap.lookup_remove_other {α : Type} (k j : String) (l : List (String × α))
    (h : j ≠ k) : JSMap.lookup j (JSMap.remove k l) = JSMap.lookup j l := by
  induction l with
  | nil => simp [JSMap.remove, JSMap.lookup]
  | cons e rest ih =>
    obtain ⟨k1, v1⟩ := e
    by_cases h1 : k1 = k
    · subst h1
      simp [JSMap.remove, JSMap.lookup, Ne.symm h, ih]
    · by_cases h2 : k1 = j
      · subst h2
        simp [JSMap.remove, h1, JSMap.lookup]
      · simp [JSMap.remove, h1, JSMap.lookup, h2, ih]

theorem JSMap.get_set_same {α : Type} (m : JSMap α) (k : String) (v : α) :
    (m.set k v).get k = some v :=
  JSMap.lookup_insert_same k v m.entries

theorem JSMap.get_set_other {α : Type} (m : JSMap α) (k j : String) (v : α) (h : j ≠ k) :
    (m.set k v).get j = m.get j :=
  JSMap.lookup_insert_other k j v m.entries h

theorem JSMap.get_delete_same {α : Type} (m : JSMap α) (k : String) :
    (m.delete k).get k = none :=
  JSMap.lookup_remove_same k m.entries

theorem JSMap.get_delete_other {α : Type} (m : JSMap α) (k j : String) (h : j ≠ k) :
    (m.delete k).get j = m.get j :=
  JSMap.lookup_remove_other k j m.entries h

/-! ## Lemmas on the dispatch -/

theorem SMSHandler.parts_confirm : messageParts "CONFIRM" = ["CONFIRM"] := by decide

theorem SMSHandler.command_confirm (c : Chain) : SMSHandler.commandOf c ["CONFIRM"] = "CONFIRM" := rfl

/-- What `processCommand` does with the message `CONFIRM` for an identity that
has a wallet: it runs `handleConfirm` and renders a thrown error as a reply. -/
theorem SMSHandler.processCommand_confirm (c : Chain) (s : Store) (phoneNumber : String)
    (h : s.wallets.has phoneNumber = true) :
    SMSHandler.processCommand c s phoneNumber "CONFIRM" =
      match (SMSHandler.handleConfirm c s phoneNumber).result with
      | Except.ok reply =>
        ⟨reply, (SMSHandler.handleConfirm c s phoneNumber).store,
          Event.hasWallet phoneNumber :: (SMSHandler.handleConfirm c s phoneNumber).log⟩
      | Except.error m =>
        ⟨"Error: " ++ m, (SMSHandler.handleConfirm c s phoneNumber).store,
          Event.hasWallet phoneNumber :: (SMSHandler.handleConfirm c s phoneNumber).log⟩ := by
  simp [SMSHandler.processCommand, SMSHandler.parts_confirm, SMSHandler.command_confirm,
    SMSHandler.dispatch, WalletService.hasWallet, h]

theorem SMSHandler.processCommand_confirm_store (c : Chain) (s : Store) (phoneNumber : String)
    (h : s.wallets.has phoneNumber = true) :
    (SMSHandler.processCommand c s phoneNumber "CONFIRM").store =
      (SMSHandler.handleConfirm c s phoneNumber).store := by
  rw [SMSHandler.processCommand_confirm c s phoneNumber h]
  cases (SMSHandler.handleConfirm c s phoneNumber).result <;> rfl

theorem SMSHandler.processCommand_confirm_log (c : Chain) (s : Store) (phoneNumber : String)
    (h : s.wallets.has phoneNumber = true) :
    (SMSHandler.processCommand c s phoneNumber "CONFIRM").log =
      Event.hasWallet phoneNumber :: (SMSHandler.handleConfirm c s phoneNumber).log := by
  rw [SMSHandler.processCommand_confirm c s phoneNumber h]
  cases (SMSHandler.handleConfirm c s phoneNumber).result <;> rfl

/-- After `handleConfirm` the identity has no pending entry, on every path. -/
theorem SMSHandler.handleConfirm_get_same (c : Chain) (s : Store) (phoneNumber : String) :
    (SMSHandler.handleConfirm c s phoneNumber).store.pendingTransactions.get phoneNumber = none := by
  unfold SMSHandler.handleConfirm
  cases hp : s.pendingTransactions.get phoneNumber with
  | none => simpa using hp
  | some pending =>
    by_cases ht : c.now - pending.timestamp > SMSHandler.ttlMs
    · simp [ht, JSMap.get_delete_same]
    · simp only [ht, if_false]
      cases (WalletService.sendTransaction c s.wallets phoneNumber pending.toAddress
        pending.amount).result <;> simp [JSMap.get_delete_same]

/-- The store `handleConfirm` leaves differs from the one it found at most in the
pending entry of the identity. -/
theorem SMSHandler.handleConfirm_get_other (c : Chain) (s : Store) (phoneNumber j : String)
    (hj : j ≠ phoneNumber) :
    (SMSHandler.handleConfirm c s phoneNumber).store.pendingTransactions.get j =
      s.pendingTransactions.get j := by
  unfold SMSHandler.handleConfirm
  cases hp : s.pendingTransactions.get phoneNumber with
  | none => simp
  | some pending =>
    by_cases ht : c.now - pending.timestamp > SMSHandler.ttlMs
    · simp [ht, JSMap.get_delete_other _ _ _ hj]
    · simp only [ht, if_false]
      cases (WalletService.sendTransaction c s.wallets phoneNumber pending.toAddress
        pending.amount).result <;> simp [JSMap.get_delete_other _ _ _ hj]

theorem SMSHandler.handleConfirm_wallets (c : Chain) (s : Store) (phoneNumber : String) :
    (SMSHandler.handleConfirm c s phoneNumber).store.wallets = s.wallets := by
  unfold SMSHandler.handleConfirm
  cases hp : s.pendingTransactions.get phoneNumber with
  | none => simp
  | some pending =>
    by_cases ht : c.now - pending.timestamp > SMSHandler.ttlMs
    · simp [ht]
    · simp only [ht, if_false]
      cases (WalletService.sendTransaction c s.wallets phoneNumber pending.toAddress
        pending.amount).result <;> simp

/-! ## C1: `CONFIRM` always consumes the pending entry -/

/-- C1: for an identity with a wallet and any state, after
`processCommand(id, "CONFIRM")` the pending-transfer map has no entry for `id`,
whatever the wallet service and the gateway answered, and the entry of every
other identity is the one it was. -/
theorem confirm_leaves_no_pending_entry (c : Chain) (s : Store) (id : String)
    (h : s.wallets.has id = true) :
    (SMSHandler.processCommand c s id "CONFIRM").store.pendingTransactions.get id = none ∧
    ∀ j, j ≠ id →
      (SMSHandler.processCommand c s id "CONFIRM").store.pendingTransactions.get j =
        s.pendingTransactions.get j := by
  rw [SMSHandler.processCommand_confirm_store c s id h]
  exact ⟨SMSHandler.handleConfirm_get_same c s id,
    fun j hj => SMSHandler.handleConfirm_get_other c s id j hj⟩

/-- C1 at the sample state, where `+15550001` has a live pending entry. -/
theorem confirm_leaves_no_pending_entry_witness :
    sampleStore.wallets.has "+15550001" = true ∧
    sampleStore.pendingTransactions.get "+15550001" ≠ none ∧
    ((SMSHandler.processCommand sampleChain sampleStore "+15550001"
        "CONFIRM").store.pendingTransactions.get "+15550001" = none ∧
      ∀ j, j ≠ "+15550001" →
        (SMSHandler.processCommand sampleChain sampleStore "+15550001"
          "CONFIRM").store.pendingTransactions.get j = sampleStore.pendingTransactions.get j) :=
  ⟨by decide, by decide,
    confirm_leaves_no_pending_entry sampleChain sampleStore "+15550001" (by decide)⟩

/-! ## Lemmas on `split` -/

theorem jsSplitGo_token (t : List Char) (ht : t.all (fun ch => !isJSWhiteSpace ch) = true) :
    ∀ (rest cur : List Char) (inWS : Bool),
      jsSplitGo (t ++ rest) cur inWS = jsSplitGo rest (t.reverse ++ cur) (inWS && t.isEmpty) := by
  induction t with
  | nil => intro rest cur inWS; simp
  | cons x xs ih =>
    intro rest cur inWS
    simp only [List.all_cons, Bool.and_eq_true, Bool.not_eq_true', ] at ht
    have hx : isJSWhiteSpace x = false := by simpa using ht.1
    have := ih ht.2 rest (x :: cur) false
    simp [jsSplitGo, hx, this]

theorem jsTrimChars_id (l : List Char) (x y : Char) (pre post : List Char)
    (h1 : l = x :: post) (h2 : l = pre ++ [y])
    (hx : isJSWhiteSpace x = false) (hy : isJSWhiteSpace y = false) : jsTrimChars l = l := by
  unfold jsTrimChars
  have : l.dropWhile isJSWhiteSpace = l := by
    rw [h1]; simp [List.dropWhile, hx]
  rw [this, h2]
  simp [List.dropWhile, hy]

theorem messageParts_send (d a : String) (hd : isToken d = true) (ha : isToken a = true)
    (hd0 : d ≠ "") (ha0 : a ≠ "") :
    messageParts ("SEND " ++ d ++ " " ++ a) = ["SEND", d, a] := by
  obtain ⟨D⟩ := d
  obtain ⟨A⟩ := a
  have hD : D ≠ [] := fun h => hd0 (by rw [h])
  have hA : A ≠ [] := fun h => ha0 (by rw [h])
  have hdt : D.all (fun ch => !isJSWhiteSpace ch) = true := hd
  have hat : A.all (fun ch => !isJSWhiteSpace ch) = true := ha
  have hdata : ("SEND " ++ String.mk D ++ " " ++ String.mk A).data =
      ['S', 'E', 'N', 'D'] ++ (' ' :: (D ++ (' ' :: (A ++ [])))) := by
    simp [String.data_append]
  have hlast : isJSWhiteSpace (A.getLast hA) = false := by
    have := List.all_eq_true.mp hat (A.getLast hA) (List.getLast_mem hA)
    simpa using this
  have htrim : jsTrimChars (['S', 'E', 'N', 'D'] ++ (' ' :: (D ++ (' ' :: (A ++ []))))) =
      ['S', 'E', 'N', 'D'] ++ (' ' :: (D ++ (' ' :: (A ++ [])))) := by
    apply jsTrimChars_id _ 'S' (A.getLast hA)
      (['S', 'E', 'N', 'D'] ++ (' ' :: (D ++ (' ' :: A.dropLast))))
      (['E', 'N', 'D'] ++ (' ' :: (D ++ (' ' :: (A ++ [])))))
    · rfl
    · simp [List.dropLast_append_getLast hA]
    · decide
    · exact hlast
  unfold messageParts jsSplitWS
  rw [hdata, htrim]
  rw [jsSplitGo_token ['S', 'E', 'N', 'D'] (by decide)]
  have hsp : isJSWhiteSpace ' ' = true := by decide
  simp only [jsSplitGo, hsp, if_true]
  rw [jsSplitGo_token D hdt]
  have hDe : D.isEmpty = false := by
    cases D with
    | nil => exact absurd rfl hD
    | cons _ _ => rfl
  simp only [hDe, Bool.and_false, jsSplitGo, hsp, if_true]
  rw [jsSplitGo_token A hat]
  simp [jsSplitGo]

/-! ## Lemmas on the logs of the wallet service -/

theorem WalletService.sendTransaction_log (c : Chain) (w : JSMap WalletRecord) (p t a : String) :
    (WalletService.sendTransaction c w p t a).log =
      (WalletService.sendTransactionBody c w p t a).log := by
  unfold WalletService.sendTransaction
  split
  · next h => rw [h]
  · rfl

theorem WalletService.getWallet_calls (c : Chain) (w : JSMap WalletRecord) (p : String) :
    sendTransactionCalls (WalletService.getWallet c w p).log = [] := by
  unfold WalletService.getWallet
  repeat' split
  all_goals simp [sendTransactionCalls]

/-- The wallet service does not call its own `sendTransaction` again. -/
theorem WalletService.sendTransaction_calls (c : Chain) (w : JSMap WalletRecord)
    (p t a : String) :
    sendTransactionCalls (WalletService.sendTransaction c w p t a).log = [] := by
  rw [WalletService.sendTransaction_log]
  have hg := WalletService.getWallet_calls c w p
  unfold WalletService.sendTransactionBody
  dsimp only
  repeat' split
  all_goals simp_all [sendTransactionCalls]

/-! ## Lemmas on `handleConfirm` -/

/-- The expired path of `handleConfirm`. -/
theorem SMSHandler.handleConfirm_expired (c : Chain) (s : Store) (phoneNumber : String)
    (pending : PendingTx) (hp : s.pendingTransactions.get phoneNumber = some pending)
    (ht : c.now - pending.timestamp > SMSHandler.ttlMs) :
    SMSHandler.handleConfirm c s phoneNumber =
      ⟨Except.ok SMSHandler.expiredReply,
        { s with pendingTransactions := s.pendingTransactions.delete phoneNumber }, []⟩ := by
  simp [SMSHandler.handleConfirm, hp, ht]

/-- The live path of `handleConfirm`. -/
theorem SMSHandler.handleConfirm_live (c : Chain) (s : Store) (phoneNumber : String)
    (pending : PendingTx) (hp : s.pendingTransactions.get phoneNumber = some pending)
    (ht : ¬ c.now - pending.timestamp > SMSHandler.ttlMs) :
    SMSHandler.handleConfirm c s phoneNumber =
      ⟨(match (WalletService.sendTransaction c s.wallets phoneNumber pending.toAddress
            pending.amount).result with
        | Except.ok result =>
          Except.ok
            (SMSHandler.transactionSentReply result.hash pending.amount pending.toAddress)
        | Except.error m => Except.error ("Transaction failed: " ++ m)),
        { s with pendingTransactions := s.pendingTransactions.delete phoneNumber },
        Event.sendTransaction phoneNumber pending.toAddress pending.amount ::
          (WalletService.sendTransaction c s.wallets phoneNumber pending.toAddress
            pending.amount).log⟩ := by
  simp only [SMSHandler.handleConfirm, hp, ht, if_false]
  cases (WalletService.sendTransaction c s.wallets phoneNumber pending.toAddress
    pending.amount).result <;> rfl

theorem SMSHandler.ttlMs_eq : SMSHandler.ttlMs = 600000 := by decide

/-! ## C5: the ten-minute expiry of `CONFIRM` -/

/-- C5: for an identity with a wallet and a pending entry stamped at `t`, a
`CONFIRM` processed at time `now` with `now - t > 600000` returns the
transaction-expired reply, calls no method of the wallet service but
`hasWallet`, and removes the entry; with `now - t <= 600000` it calls
`walletService.sendTransaction` once, with the destination and the amount of the
entry, and replies with the outcome of that transfer. -/
theorem confirm_expiry_boundary (c : Chain) (s : Store) (id : String) (pending : PendingTx)
    (hw : s.wallets.has id = true) (hp : s.pendingTransactions.get id = some pending) :
    (c.now - pending.timestamp > 600000 →
      (SMSHandler.processCommand c s id "CONFIRM").reply = SMSHandler.expiredReply ∧
      (SMSHandler.processCommand c s id "CONFIRM").log = [Event.hasWallet id] ∧
      (SMSHandler.processCommand c s id "CONFIRM").store.pendingTransactions.get id = none) ∧
    (c.now - pending.timestamp ≤ 600000 →
      sendTransactionCalls (SMSHandler.processCommand c s id "CONFIRM").log =
        [(id, pending.toAddress, pending.amount)] ∧
      (SMSHandler.processCommand c s id "CONFIRM").reply =
        match (WalletService.sendTransaction c s.wallets id pending.toAddress
            pending.amount).result with
        | Except.ok result =>
          SMSHandler.transactionSentReply result.hash pending.amount pending.toAddress
        | Except.error m => "Error: " ++ ("Transaction failed: " ++ m)) := by
  constructor
  · intro ht
    have ht1 : c.now - pending.timestamp > SMSHandler.ttlMs := by
      rw [SMSHandler.ttlMs_eq]; exact ht
    rw [SMSHandler.processCommand_confirm c s id hw,
      SMSHandler.handleConfirm_expired c s id pending hp ht1]
    exact ⟨rfl, rfl, JSMap.get_delete_same _ _⟩
  · intro ht
    have ht1 : ¬ c.now - pending.timestamp > SMSHandler.ttlMs := by
      rw [SMSHandler.ttlMs_eq]; exact not_lt.mpr ht
    rw [SMSHandler.processCommand_confirm c s id hw,
      SMSHandler.handleConfirm_live c s id pending hp ht1]
    have hcalls := WalletService.sendTransaction_calls c s.wallets id pending.toAddress
      pending.amount
    cases hr : (WalletService.sendTransaction c s.wallets id pending.toAddress
      pending.amount).result with
    | error m =>
      refine ⟨?_, rfl⟩
      simpa [sendTransactionCalls] using hcalls
    | ok result =>
      refine ⟨?_, rfl⟩
      simpa [sendTransactionCalls] using hcalls

/-- C5 at the sample state: the entry of `+15550001` is stamped at `900000`; at
time `1000000` it is live and at time `1500001` it has expired. -/
theorem confirm_expiry_boundary_witness :
    sampleStore.wallets.has "+15550001" = true ∧
    (1500001 : Int) - 900000 > 600000 ∧
    (SMSHandler.processCommand { sampleChain with now := 1500001 } sampleStore "+15550001"
      "CONFIRM").reply = SMSHandler.expiredReply ∧
    sampleChain.now - 900000 ≤ 600000 ∧
    sendTransactionCalls (SMSHandler.processCommand sampleChain sampleStore "+15550001"
      "CONFIRM").log = [("+15550001", sampleAddress, "1")] :=
  ⟨by decide, by decide,
    ((confirm_expiry_boundary { sampleChain with now := 1500001 } sampleStore "+15550001"
      { toAddress := sampleAddress, amount := "1", timestamp := 900000 } (by decide)
      (by decide)).1 (by decide)).1,
    by decide,
    ((confirm_expiry_boundary sampleChain sampleStore "+15550001"
      { toAddress := sampleAddress, amount := "1", timestamp := 900000 } (by decide)
      (by decide)).2 (by decide)).1⟩

/-! ## Lemmas on `SEND` -/

/-- What `processCommand` does with a message whose command is `SEND`, for an
identity that has a wallet: it runs `handleSend` on the parts of the message. -/
theorem SMSHandler.processCommand_send (c : Chain) (s : Store) (phoneNumber message : String)
    (h : s.wallets.has phoneNumber = true)
    (hcmd : SMSHandler.commandOf c (messageParts message) = "SEND") :
    SMSHandler.processCommand c s phoneNumber message =
      match (SMSHandler.handleSend c s phoneNumber (messageParts message)).result with
      | Except.ok reply =>
        ⟨reply, (SMSHandler.handleSend c s phoneNumber (messageParts message)).store,
          Event.hasWallet phoneNumber ::
            (SMSHandler.handleSend c s phoneNumber (messageParts message)).log⟩
      | Except.error m =>
        ⟨"Error: " ++ m, (SMSHandler.handleSend c s phoneNumber (messageParts message)).store,
          Event.hasWallet phoneNumber ::
            (SMSHandler.handleSend c s phoneNumber (messageParts message)).log⟩ := by
  simp [SMSHandler.processCommand, hcmd, SMSHandler.dispatch, WalletService.hasWallet, h]

/-- The accepting path of `handleSend`. -/
theorem SMSHandler.handleSend_accept (c : Chain) (s : Store) (phoneNumber : String)
    (parts : List String) (hlen : 3 ≤ parts.length)
    (h0x : startsWith0x (parts.getD 1 "") = true) (h42 : jsLength (parts.getD 1 "") = 42)
    (hamt : amountRejected (parts.getD 2 "") = false) :
    SMSHandler.handleSend c s phoneNumber parts =
      ⟨Except.ok (SMSHandler.sendPromptReply (parts.getD 1 "") (parts.getD 2 "")),
        { s with pendingTransactions :=
            (s.pendingTransactions.set phoneNumber ⟨parts.getD 1 "", parts.getD 2 "", c.now⟩) },
        []⟩ := by
  have hlen1 : ¬ parts.length < 3 := not_lt.mpr hlen
  simp only [SMSHandler.handleSend, hlen1, if_false, h0x, h42, hamt]
  rfl

theorem SMSHandler.command_send (c : Chain) (rest : List String) :
    SMSHandler.commandOf c ("SEND" :: rest) = "SEND" := rfl

/-! ## C2: `SEND` followed by `CONFIRM` -/

/-- C2: for an identity with a wallet, a destination token `d` that starts with
`0x` and has length 42 and an amount token `a` that passes the amount check:
after `processCommand(id, "SEND d a")` at time `c1.now` and then
`processCommand(id, "CONFIRM")` at a time `c2.now` at most 600000 ms later,
`walletService.sendTransaction` has been called exactly once over the two
calls, with the arguments `(id, d, a)`, and `id` has no pending entry. -/
theorem send_then_confirm_calls_once (c1 c2 : Chain) (s : Store) (id d a : String)
    (hw : s.wallets.has id = true)
    (hdt : isToken d = true) (h0x : startsWith0x d = true) (h42 : jsLength d = 42)
    (hat : isToken a = true) (hamt : amountRejected a = false)
    (httl : c2.now - c1.now ≤ 600000) :
    sendTransactionCalls
      ((SMSHandler.processCommand c1 s id ("SEND " ++ d ++ " " ++ a)).log ++
        (SMSHandler.processCommand c2
          (SMSHandler.processCommand c1 s id ("SEND " ++ d ++ " " ++ a)).store id
          "CONFIRM").log) = [(id, d, a)] ∧
    (SMSHandler.processCommand c2
      (SMSHandler.processCommand c1 s id ("SEND " ++ d ++ " " ++ a)).store id
      "CONFIRM").store.pendingTransactions.get id = none := by
  have hd0 : d ≠ "" := by
    intro h
    rw [h] at h0x
    exact absurd h0x (by decide)
  have ha0 : a ≠ "" := by
    intro h
    rw [h] at hamt
    exact absurd hamt (by decide)
  have hparts := messageParts_send d a hdt hat hd0 ha0
  have hsend : SMSHandler.processCommand c1 s id ("SEND " ++ d ++ " " ++ a) =
      ⟨SMSHandler.sendPromptReply d a,
        { s with pendingTransactions := (s.pendingTransactions.set id ⟨d, a, c1.now⟩) },
        [Event.hasWallet id]⟩ := by
    rw [SMSHandler.processCommand_send c1 s id _ hw
      (by rw [hparts]; exact SMSHandler.command_send c1 [d, a]), hparts,
      SMSHandler.handleSend_accept c1 s id ["SEND", d, a] (by simp) h0x h42 hamt]
    rfl
  rw [hsend]
  have hw1 : ({ s with pendingTransactions :=
      (s.pendingTransactions.set id ⟨d, a, c1.now⟩) } : Store).wallets.has id = true := hw
  have hp1 : ({ s with pendingTransactions :=
      (s.pendingTransactions.set id ⟨d, a, c1.now⟩) } : Store).pendingTransactions.get id =
      some ⟨d, a, c1.now⟩ := JSMap.get_set_same _ _ _
  have ht1 : ¬ c2.now - (⟨d, a, c1.now⟩ : PendingTx).timestamp > SMSHandler.ttlMs := by
    rw [SMSHandler.ttlMs_eq]; exact not_lt.mpr httl
  constructor
  · rw [SMSHandler.processCommand_confirm_log c2 _ id hw1,
      SMSHandler.handleConfirm_live c2 _ id ⟨d, a, c1.now⟩ hp1 ht1]
    have hcalls := WalletService.sendTransaction_calls c2 s.wallets id d a
    simpa [sendTransactionCalls] using hcalls
  · rw [SMSHandler.processCommand_confirm_store c2 _ id hw1]
    exact SMSHandler.handleConfirm_get_same c2 _ id

set_option exponentiation.threshold 2000 in
/-- C2 at the message `SEND 0xAAAA...(40 hex) 0.01` of the specification, sent
at time `1000000` and confirmed at time `1000500` by `+15550001`. -/
theorem send_then_confirm_calls_once_witness :
    sendTransactionCalls
      ((SMSHandler.processCommand sampleChain readyStore "+15550001"
          ("SEND " ++ sampleAddress ++ " " ++ "0.01")).log ++
        (SMSHandler.processCommand { sampleChain with now := 1000500 }
          (SMSHandler.processCommand sampleChain readyStore "+15550001"
            ("SEND " ++ sampleAddress ++ " " ++ "0.01")).store "+15550001"
          "CONFIRM").log) = [("+15550001", sampleAddress, "0.01")] ∧
    (SMSHandler.processCommand { sampleChain with now := 1000500 }
      (SMSHandler.processCommand sampleChain readyStore "+15550001"
        ("SEND " ++ sampleAddress ++ " " ++ "0.01")).store "+15550001"
      "CONFIRM").store.pendingTransactions.get "+15550001" = none :=
  send_then_confirm_calls_once sampleChain { sampleChain with now := 1000500 } readyStore
    "+15550001" sampleAddress "0.01" (by decide) (by decide) (by decide) (by decide)
    (by decide) (by decide) (by decide)

/-! ## Lemmas on `sendTransaction` -/

theorem WalletService.sendTransaction_result (c : Chain) (w : JSMap WalletRecord) (p t a : String) :
    (WalletService.sendTransaction c w p t a).result =
      match (WalletService.sendTransactionBody c w p t a).result with
      | Except.error m => Except.error ("Transaction failed: " ++ m)
      | Except.ok r => Except.ok r := by
  unfold WalletService.sendTransaction
  split
  · next h => rw [h]
  · next h =>
    cases hr : (WalletService.sendTransactionBody c w p t a) with
    | mk res log =>
      cases res with
      | error m => exact absurd hr (h m log)
      | ok r => rfl

theorem broadcasts_append (l1 l2 : List Event) :
    broadcasts (l1 ++ l2) = broadcasts l1 ++ broadcasts l2 := by
  simp [broadcasts, List.filterMap_append]

theorem WalletService.getWallet_broadcasts (c : Chain) (w : JSMap WalletRecord) (p : String) :
    broadcasts (WalletService.getWallet c w p).log = [] := by
  unfold WalletService.getWallet
  repeat' split
  all_goals simp [broadcasts]

/-- Below the total cost, the body of `sendTransaction` throws and does not broadcast. -/
theorem WalletService.sendTransactionBody_short (c : Chain) (w : JSMap WalletRecord)
    (p t a : String) (balance amountInWei gasPrice : Nat)
    (hamt : c.parseEther a = Except.ok (amountInWei : Int))
    (hbal : ∀ address, c.getBalance address = Except.ok balance)
    (hfee : c.getFeeData = Except.ok (some gasPrice))
    (hlt : balance < amountInWei + gasPrice * 21000) :
    (∃ m, (WalletService.sendTransactionBody c w p t a).result = Except.error m) ∧
    broadcasts (WalletService.sendTransactionBody c w p t a).log = [] := by
  have hg := WalletService.getWallet_broadcasts c w p
  unfold WalletService.sendTransactionBody
  dsimp only
  rw [hamt, hfee]
  simp only [hbal]
  cases hgw : WalletService.getWallet c w p with
  | mk res log0 =>
    rw [hgw] at hg
    cases res with
    | error m => exact ⟨⟨m, rfl⟩, hg⟩
    | ok addr =>
      dsimp only
      by_cases hA : c.isAddress t = true
      · simp only [hA, Bool.not_true, Bool.false_eq_true, if_false]
        by_cases h1 : (balance : Int) < (amountInWei : Int)
        · simp only [h1, if_true]
          refine ⟨⟨_, rfl⟩, ?_⟩
          simpa [broadcasts] using hg
        · have h2 : (balance : Int) < (amountInWei : Int) + ((gasPrice * WalletService.gasLimit : Nat) : Int) := by
            unfold WalletService.gasLimit
            exact_mod_cast hlt
          simp only [h1, if_false, h2, if_true]
          refine ⟨⟨_, rfl⟩, ?_⟩
          simpa [broadcasts] using hg
      · simp only [hA, Bool.not_false, if_true]
        exact ⟨⟨_, rfl⟩, hg⟩

/-- With a decryptable wallet and a well-formed destination, the body of
`sendTransaction` throws one of the two insufficient-balance errors below the
total cost, and broadcasts once from it on. -/
theorem WalletService.sendTransactionBody_gate (c : Chain) (w : JSMap WalletRecord)
    (p t a walletAddress : String) (balance amountInWei gasPrice : Nat)
    (hgw : (WalletService.getWallet c w p).result = Except.ok walletAddress)
    (hA : c.isAddress t = true)
    (hamt : c.parseEther a = Except.ok (amountInWei : Int))
    (hbal : c.getBalance walletAddress = Except.ok balance)
    (hfee : c.getFeeData = Except.ok (some gasPrice)) :
    (balance < amountInWei + gasPrice * 21000 →
      (WalletService.sendTransactionBody c w p t a).result =
        Except.error (if balance < amountInWei then "Insufficient balance"
          else "Insufficient balance for transaction + gas")) ∧
    (amountInWei + gasPrice * 21000 ≤ balance →
      broadcasts (WalletService.sendTransactionBody c w p t a).log =
        [(walletAddress, ⟨t, amountInWei, 21000, gasPrice⟩)]) := by
  have hg := WalletService.getWallet_broadcasts c w p
  unfold WalletService.sendTransactionBody
  dsimp only
  cases hgw1 : WalletService.getWallet c w p with
  | mk res log0 =>
    rw [hgw1] at hg hgw
    dsimp only at hgw hg
    subst hgw
    dsimp only
    rw [hamt, hfee, hbal]
    simp only [hA, Bool.not_true, Bool.false_eq_true, if_false]
    constructor
    · intro hlt
      by_cases h1 : balance < amountInWei
      · have h1i : (balance : Int) < (amountInWei : Int) := by exact_mod_cast h1
        simp only [h1i, h1, if_true]
      · have h1i : ¬ (balance : Int) < (amountInWei : Int) := by exact_mod_cast h1
        have h2 : (balance : Int) <
            (amountInWei : Int) + ((gasPrice * WalletService.gasLimit : Nat) : Int) := by
          unfold WalletService.gasLimit
          exact_mod_cast hlt
        simp only [h1i, h1, if_false, h2, if_true]
    · intro hge
      have h1i : ¬ (balance : Int) < (amountInWei : Int) := by
        have : amountInWei ≤ balance := le_trans (Nat.le_add_right _ _) hge
        exact_mod_cast not_lt.mpr this
      have h2 : ¬ (balance : Int) <
          (amountInWei : Int) + ((gasPrice * WalletService.gasLimit : Nat) : Int) := by
        unfold WalletService.gasLimit
        exact_mod_cast not_lt.mpr hge
      simp only [h1i, if_false, h2]
      cases c.sendTx walletAddress
        { toAddress := t, value := (amountInWei : Int), gasLimit := WalletService.gasLimit,
          gasPrice := gasPrice } with
      | error m =>
        simp only [broadcasts_append, hg]
        rfl
      | ok u =>
        cases c.wait with
        | error m =>
          simp only [broadcasts_append, hg]
          rfl
        | ok receipt =>
          simp only [broadcasts_append, hg]
          rfl

/-! ## C3: the balance gate of `sendTransaction` -/

/-- C3: in `sendTransaction`, when the amount converts to `amountInWei`, the
balance lookup answers `balance` and the fee data carry `gasPrice`: if
`balance < amountInWei + gasPrice * 21000` the call fails and the log holds no
broadcast; and with a decryptable wallet and a well-formed destination, below
the total cost the error is one of the two insufficient-balance errors, the
broadcast is invoked exactly when `balance >= amountInWei + gasPrice * 21000`,
and then once, with value `amountInWei`, gas limit `21000` and that gas price. -/
theorem sendTransaction_total_cost_gate (c : Chain) (wallets : JSMap WalletRecord)
    (phoneNumber toAddress amount : String) (balance amountInWei gasPrice : Nat)
    (hamt : c.parseEther amount = Except.ok (amountInWei : Int))
    (hbal : ∀ address, c.getBalance address = Except.ok balance)
    (hfee : c.getFeeData = Except.ok (some gasPrice)) :
    (balance < amountInWei + gasPrice * 21000 →
      (∃ m, (WalletService.sendTransaction c wallets phoneNumber toAddress amount).result =
        Except.error m) ∧
      broadcasts (WalletService.sendTransaction c wallets phoneNumber toAddress amount).log
        = []) ∧
    (∀ walletAddress,
      (WalletService.getWallet c wallets phoneNumber).result = Except.ok walletAddress →
      c.isAddress toAddress = true →
      (balance < amountInWei + gasPrice * 21000 →
        (WalletService.sendTransaction c wallets phoneNumber toAddress amount).result =
          Except.error ("Transaction failed: " ++
            (if balance < amountInWei then "Insufficient balance"
              else "Insufficient balance for transaction + gas"))) ∧
      (broadcasts (WalletService.sendTransaction c wallets phoneNumber toAddress amount).log
          ≠ [] ↔ amountInWei + gasPrice * 21000 ≤ balance) ∧
      (amountInWei + gasPrice * 21000 ≤ balance →
        broadcasts (WalletService.sendTransaction c wallets phoneNumber toAddress amount).log =
          [(walletAddress, ⟨toAddress, amountInWei, 21000, gasPrice⟩)])) := by
  rw [WalletService.sendTransaction_log, WalletService.sendTransaction_result]
  constructor
  · intro hlt
    obtain ⟨⟨m, hm⟩, hb⟩ := WalletService.sendTransactionBody_short c wallets phoneNumber
      toAddress amount balance amountInWei gasPrice hamt hbal hfee hlt
    exact ⟨⟨_, by rw [hm]⟩, hb⟩
  · intro walletAddress hgw hA
    obtain ⟨hlow, hhigh⟩ := WalletService.sendTransactionBody_gate c wallets phoneNumber
      toAddress amount walletAddress balance amountInWei gasPrice hgw hA hamt
      (hbal walletAddress) hfee
    refine ⟨fun hlt => by rw [hlow hlt], ?_, hhigh⟩
    constructor
    · intro hne
      by_contra hlt
      exact hne (WalletService.sendTransactionBody_short c wallets phoneNumber toAddress
        amount balance amountInWei gasPrice hamt hbal hfee (not_le.mp hlt)).2
    · intro hge
      rw [hhigh hge]
      exact List.cons_ne_nil _ _

/-- C3 at the sample world (balance `10 ^ 18`, amount `10 ^ 16`, gas price
`10 ^ 9`: one broadcast) and at the world whose balance is `10 ^ 16` (the
amount fits, the amount and the fee do not: no broadcast). -/
theorem sendTransaction_total_cost_gate_witness :
    broadcasts (WalletService.sendTransaction sampleChain sampleStore.wallets "+15550001"
      sampleAddress "0.01").log =
      [("0xBBBBBBBBBBBBBBBBBBBBBBBBBBBBBBBBBBBBBBBB",
        ⟨sampleAddress, 10000000000000000, 21000, 1000000000⟩)] ∧
    (WalletService.sendTransaction tightChain sampleStore.wallets "+15550001"
      sampleAddress "0.01").result =
      Except.error "Transaction failed: Insufficient balance for transaction + gas" ∧
    broadcasts (WalletService.sendTransaction tightChain sampleStore.wallets "+15550001"
      sampleAddress "0.01").log = [] :=
  ⟨((sendTransaction_total_cost_gate sampleChain sampleStore.wallets "+15550001"
      sampleAddress "0.01" 1000000000000000000 10000000000000000 1000000000 rfl
      (fun _ => rfl) rfl).2 "0xBBBBBBBBBBBBBBBBBBBBBBBBBBBBBBBBBBBBBBBB" rfl rfl).2.2
      (by decide),
    ((sendTransaction_total_cost_gate tightChain sampleStore.wallets "+15550001"
      sampleAddress "0.01" 10000000000000000 10000000000000000 1000000000 rfl
      (fun _ => rfl) rfl).2 "0xBBBBBBBBBBBBBBBBBBBBBBBBBBBBBBBBBBBBBBBB" rfl rfl).1
      (by decide),
    ((sendTransaction_total_cost_gate tightChain sampleStore.wallets "+15550001"
      sampleAddress "0.01" 10000000000000000 10000000000000000 1000000000 rfl
      (fun _ => rfl) rfl).1 (by decide)).2⟩

/-! ## C6: the wallet guard -/

/-- C6: for an identity without a wallet record and a message whose first
token, upper-cased, is neither `START` nor `HELP`, `processCommand` returns the
onboarding prompt, leaves both maps as they were, and calls nothing of the
wallet service but `hasWallet`. -/
theorem unprovisioned_gets_onboarding_prompt (c : Chain) (s : Store) (id message : String)
    (hno : s.wallets.has id = false)
    (hstart : SMSHandler.commandOf c (messageParts message) ≠ "START")
    (hhelp : SMSHandler.commandOf c (messageParts message) ≠ "HELP") :
    SMSHandler.processCommand c s id message =
      ⟨SMSHandler.onboardingReply, s, [Event.hasWallet id]⟩ := by
  simp [SMSHandler.processCommand, hstart, hhelp, WalletService.hasWallet, hno]

/-- C6 at the empty message and at a well-formed `SEND`, for an identity that
has no wallet in a state where another identity has a pending entry. -/
theorem unprovisioned_gets_onboarding_prompt_witness :
    SMSHandler.processCommand sampleChain sampleStore "+15550002" "" =
      ⟨SMSHandler.onboardingReply, sampleStore, [Event.hasWallet "+15550002"]⟩ ∧
    SMSHandler.processCommand sampleChain sampleStore "+15550002"
      "SEND 0xAAAAAAAAAAAAAAAAAAAAAAAAAAAAAAAAAAAAAAAA 1" =
      ⟨SMSHandler.onboardingReply, sampleStore, [Event.hasWallet "+15550002"]⟩ :=
  ⟨unprovisioned_gets_onboarding_prompt sampleChain sampleStore "+15550002" "" (by decide)
      (by decide) (by decide),
    unprovisioned_gets_onboarding_prompt sampleChain sampleStore "+15550002"
      "SEND 0xAAAAAAAAAAAAAAAAAAAAAAAAAAAAAAAAAAAAAAAA 1" (by decide) (by decide) (by decide)⟩

/-! ## C7: a second provisioning is refused -/

theorem SMSHandler.parts_start : messageParts "START" = ["START"] := by decide

theorem SMSHandler.command_start (c : Chain) : SMSHandler.commandOf c ["START"] = "START" := rfl

/-- C7: for an identity that has a wallet record, `createWallet(identity)`
throws and leaves the wallet map as it was, and `processCommand(identity,
"START")` returns the already-have-a-wallet reply and leaves the whole state,
the wallet map with its one record of the identity included, as it was. -/
theorem second_provisioning_is_refused (c : Chain) (s : Store) (id : String)
    (h : s.wallets.has id = true) :
    (WalletService.createWallet c s.wallets id).1.result =
      Except.error "Wallet creation failed: Wallet already exists for this number" ∧
    (WalletService.createWallet c s.wallets id).2 = s.wallets ∧
    (SMSHandler.processCommand c s id "START").reply = SMSHandler.alreadyHaveWalletReply ∧
    (SMSHandler.processCommand c s id "START").store = s := by
  refine ⟨?_, ?_, ?_, ?_⟩
  · simp [WalletService.createWallet, WalletService.createWalletBody, h]
  · simp [WalletService.createWallet, WalletService.createWalletBody, h]
  · simp [SMSHandler.processCommand, SMSHandler.parts_start, SMSHandler.command_start,
      SMSHandler.dispatch, SMSHandler.handleStart, WalletService.hasWallet, h]
  · simp [SMSHandler.processCommand, SMSHandler.parts_start, SMSHandler.command_start,
      SMSHandler.dispatch, SMSHandler.handleStart, WalletService.hasWallet, h]

/-- C7 at the sample state, whose wallet record of `+15550001` stays the one it
was. -/
theorem second_provisioning_is_refused_witness :
    sampleStore.wallets.get "+15550001" = some sampleWallet ∧
    ((WalletService.createWallet sampleChain sampleStore.wallets "+15550001").1.result =
      Except.error "Wallet creation failed: Wallet already exists for this number" ∧
    (WalletService.createWallet sampleChain sampleStore.wallets "+15550001").2 =
      sampleStore.wallets ∧
    (SMSHandler.processCommand sampleChain sampleStore "+15550001" "START").reply =
      SMSHandler.alreadyHaveWalletReply ∧
    (SMSHandler.processCommand sampleChain sampleStore "+15550001" "START").store =
      sampleStore) :=
  ⟨by decide, second_provisioning_is_refused sampleChain sampleStore "+15550001" (by decide)⟩

/-! ## C8: the amount check of `SEND` -/

/-- C8: the amount check rejects `-1`, `abc` and `0`, but the amount tokens
`1abc` and `Infinity` pass it: for `SEND 0xAAAA...(40 hex) 1abc` from an identity
with a wallet and nothing pending, `processCommand` returns the confirmation
prompt, not the invalid-amount reply, and stores a pending entry whose amount
is `1abc`. -/
theorem send_stores_amount_with_trailing_text :
    amountRejected "-1" = true ∧ amountRejected "abc" = true ∧ amountRejected "0" = true ∧
    amountRejected "1abc" = false ∧ amountRejected "Infinity" = false ∧
    SMSHandler.processCommand sampleChain readyStore "+15550001"
      "SEND 0xAAAAAAAAAAAAAAAAAAAAAAAAAAAAAAAAAAAAAAAA 1abc" =
      ⟨SMSHandler.sendPromptReply sampleAddress "1abc",
        { readyStore with pendingTransactions :=
            ⟨[("+15550001", ⟨sampleAddress, "1abc", 1000000⟩)]⟩ },
        [Event.hasWallet "+15550001"]⟩ ∧
    SMSHandler.sendPromptReply sampleAddress "1abc" ≠ SMSHandler.invalidAmountReply :=
  ⟨by decide, by decide, by decide, by decide, by decide, by rfl, by decide⟩

/-! ## C9: the address check of `SEND` -/

theorem SMSHandler.sendPromptReply_ne_invalidAddress (d a : String) :
    SMSHandler.sendPromptReply d a ≠ SMSHandler.invalidAddressReply := by
  intro h
  have := congrArg (fun s => s.data.head?) h
  simp [SMSHandler.sendPromptReply, SMSHandler.invalidAddressReply, String.data_append] at this

/-- The rejecting address path of `handleSend`. -/
theorem SMSHandler.handleSend_bad_address (c : Chain) (s : Store) (phoneNumber : String)
    (parts : List String) (hlen : 3 ≤ parts.length)
    (hbad : ¬ (startsWith0x (parts.getD 1 "") = true ∧ jsLength (parts.getD 1 "") = 42)) :
    SMSHandler.handleSend c s phoneNumber parts =
      ⟨Except.ok SMSHandler.invalidAddressReply, s, []⟩ := by
  have hlen1 : ¬ parts.length < 3 := not_lt.mpr hlen
  have hcond : (!startsWith0x (parts.getD 1 "") || jsLength (parts.getD 1 "") != 42) = true := by
    by_cases h1 : startsWith0x (parts.getD 1 "") = true
    · have h2 : jsLength (parts.getD 1 "") ≠ 42 := fun h => hbad ⟨h1, h⟩
      rw [h1]
      simpa using h2
    · simp only [Bool.not_eq_true] at h1
      rw [h1]
      rfl
  simp only [SMSHandler.handleSend, hlen1, if_false, hcond, if_true]

/-- The well-shaped address path of `handleSend`: the reply is the
invalid-amount reply or the confirmation prompt. -/
theorem SMSHandler.handleSend_good_address (c : Chain) (s : Store) (phoneNumber : String)
    (parts : List String) (hlen : 3 ≤ parts.length)
    (h0x : startsWith0x (parts.getD 1 "") = true) (h42 : jsLength (parts.getD 1 "") = 42) :
    SMSHandler.handleSend c s phoneNumber parts =
      if amountRejected (parts.getD 2 "") then ⟨Except.ok SMSHandler.invalidAmountReply, s, []⟩
      else
        ⟨Except.ok (SMSHandler.sendPromptReply (parts.getD 1 "") (parts.getD 2 "")),
          { s with pendingTransactions :=
              (s.pendingTransactions.set phoneNumber
                ⟨parts.getD 1 "", parts.getD 2 "", c.now⟩) }, []⟩ := by
  have hlen1 : ¬ parts.length < 3 := not_lt.mpr hlen
  simp only [SMSHandler.handleSend, hlen1, if_false, h0x, h42]
  rfl

/-- C9: for an identity with a wallet and a `SEND` message with at least three
tokens, the reply is the invalid-address reply if and only if the address
token does not both start with `0x` and have length 42 (in UTF-16 code units,
the `length` of JavaScript); and when it is that reply, the state is unchanged. -/
theorem send_address_check (c : Chain) (s : Store) (id message : String)
    (hw : s.wallets.has id = true)
    (hcmd : SMSHandler.commandOf c (messageParts message) = "SEND")
    (hlen : 3 ≤ (messageParts message).length) :
    ((SMSHandler.processCommand c s id message).reply = SMSHandler.invalidAddressReply ↔
      ¬ (startsWith0x ((messageParts message).getD 1 "") = true ∧
        jsLength ((messageParts message).getD 1 "") = 42)) ∧
    ((SMSHandler.processCommand c s id message).reply = SMSHandler.invalidAddressReply →
      (SMSHandler.processCommand c s id message).store = s) := by
  rw [SMSHandler.processCommand_send c s id message hw hcmd]
  by_cases hgood : startsWith0x ((messageParts message).getD 1 "") = true ∧
      jsLength ((messageParts message).getD 1 "") = 42
  · rw [SMSHandler.handleSend_good_address c s id _ hlen hgood.1 hgood.2]
    by_cases hamt : amountRejected ((messageParts message).getD 2 "") = true
    · simp only [hamt, if_true]
      have hne : SMSHandler.invalidAmountReply ≠ SMSHandler.invalidAddressReply := by decide
      exact ⟨⟨fun h => absurd h hne, fun h => absurd hgood h⟩, fun h => absurd h hne⟩
    · simp only [hamt, if_false]
      have hne := SMSHandler.sendPromptReply_ne_invalidAddress
        ((messageParts message).getD 1 "") ((messageParts message).getD 2 "")
      exact ⟨⟨fun h => absurd h hne, fun h => absurd hgood h⟩, fun h => absurd h hne⟩
  · rw [SMSHandler.handleSend_bad_address c s id _ hlen hgood]
    exact ⟨⟨fun _ => hgood, fun _ => rfl⟩, fun _ => rfl⟩

/-- C9 at `SEND notanaddress 1`, the message of the specification. -/
theorem send_address_check_witness :
    (SMSHandler.processCommand sampleChain readyStore "+15550001"
      "SEND notanaddress 1").reply = SMSHandler.invalidAddressReply ∧
    (SMSHandler.processCommand sampleChain readyStore "+15550001"
      "SEND notanaddress 1").store = readyStore :=
  ⟨(send_address_check sampleChain readyStore "+15550001" "SEND notanaddress 1" (by decide)
      (by decide) (by decide)).1.2 (by decide),
    (send_address_check sampleChain readyStore "+15550001" "SEND notanaddress 1" (by decide)
      (by decide) (by decide)).2 (by rfl)⟩

/-! ## C10: the number of tokens of `SEND` -/

theorem SMSHandler.commandOf_take3 (c : Chain) (parts : List String) :
    SMSHandler.commandOf c (parts.take 3) = SMSHandler.commandOf c parts := by
  cases parts <;> rfl

theorem SMSHandler.handleSend_take3 (c : Chain) (s : Store) (phoneNumber : String)
    (parts : List String) :
    SMSHandler.handleSend c s phoneNumber (parts.take 3) =
      SMSHandler.handleSend c s phoneNumber parts := by
  match parts with
  | [] => rfl
  | [_] => rfl
  | [_, _] => rfl
  | p0 :: p1 :: p2 :: rest =>
    have h1 : ¬ (List.take 3 (p0 :: p1 :: p2 :: rest)).length < 3 := by simp
    have h2 : ¬ (p0 :: p1 :: p2 :: rest).length < 3 := by simp
    simp only [SMSHandler.handleSend, h1, h2, if_false]
    rfl

/-- With fewer than three parts `handleSend` returns the usage-format reply. -/
theorem SMSHandler.handleSend_short (c : Chain) (s : Store) (phoneNumber : String)
    (parts : List String) (hlen : parts.length < 3) :
    SMSHandler.handleSend c s phoneNumber parts =
      ⟨Except.ok SMSHandler.invalidFormatReply, s, []⟩ := by
  simp only [SMSHandler.handleSend, hlen, if_true]

theorem SMSHandler.sendPromptReply_ne_invalidFormat (d a : String) :
    SMSHandler.sendPromptReply d a ≠ SMSHandler.invalidFormatReply := by
  intro h
  have := congrArg (fun s => s.data.head?) h
  simp [SMSHandler.sendPromptReply, SMSHandler.invalidFormatReply, String.data_append] at this

/-- With three parts or more the reply of `handleSend` is not the usage-format
reply. -/
theorem SMSHandler.handleSend_long (c : Chain) (s : Store) (phoneNumber : String)
    (parts : List String) (hlen : 3 ≤ parts.length) :
    (SMSHandler.handleSend c s phoneNumber parts).result ≠
      Except.ok SMSHandler.invalidFormatReply := by
  by_cases hgood : startsWith0x (parts.getD 1 "") = true ∧ jsLength (parts.getD 1 "") = 42
  · rw [SMSHandler.handleSend_good_address c s phoneNumber parts hlen hgood.1 hgood.2]
    by_cases hamt : amountRejected (parts.getD 2 "") = true
    · simp only [hamt, if_true]
      intro h
      exact absurd (Except.ok.inj h) (by decide)
    · simp only [hamt, if_false]
      intro h
      exact SMSHandler.sendPromptReply_ne_invalidFormat _ _ (Except.ok.inj h)
  · rw [SMSHandler.handleSend_bad_address c s phoneNumber parts hlen hgood]
    intro h
    exact absurd (Except.ok.inj h) (by decide)

/-- Nothing in `handleSend` throws. -/
theorem SMSHandler.handleSend_ok (c : Chain) (s : Store) (phoneNumber : String)
    (parts : List String) :
    ∃ reply, (SMSHandler.handleSend c s phoneNumber parts).result = Except.ok reply := by
  unfold SMSHandler.handleSend
  dsimp only
  repeat' split
  all_goals exact ⟨_, rfl⟩

/-- C10, as the claim states it, fails: `SEND 0xAAAA...(40 hex) 1 extra` has
four tokens, and `processCommand` does not return the usage-format reply for
it but the confirmation prompt, and stores a pending entry. -/
theorem send_with_four_tokens_is_accepted :
    (messageParts "SEND 0xAAAAAAAAAAAAAAAAAAAAAAAAAAAAAAAAAAAAAAAA 1 extra").length = 4 ∧
    readyStore.wallets.has "+15550001" = true ∧
    (SMSHandler.processCommand sampleChain readyStore "+15550001"
      "SEND 0xAAAAAAAAAAAAAAAAAAAAAAAAAAAAAAAAAAAAAAAA 1 extra").reply =
      SMSHandler.sendPromptReply sampleAddress "1" ∧
    (SMSHandler.processCommand sampleChain readyStore "+15550001"
      "SEND 0xAAAAAAAAAAAAAAAAAAAAAAAAAAAAAAAAAAAAAAAA 1 extra").reply ≠
      SMSHandler.invalidFormatReply ∧
    (SMSHandler.processCommand sampleChain readyStore "+15550001"
      "SEND 0xAAAAAAAAAAAAAAAAAAAAAAAAAAAAAAAAAAAAAAAA 1 extra").store.pendingTransactions ≠
      readyStore.pendingTransactions :=
  ⟨by decide, by decide, by rfl, by decide, by decide⟩

/-- C10, amended: for an identity with a wallet and a message whose first token
is `SEND`, the reply is the usage-format reply exactly when the message has
fewer than three tokens, and then the state is unchanged; tokens after the
third are ignored: a message with the same first three tokens gets the same
reply, state and calls. -/
theorem send_token_count (c : Chain) (s : Store) (id message : String)
    (hw : s.wallets.has id = true)
    (hcmd : SMSHandler.commandOf c (messageParts message) = "SEND") :
    ((SMSHandler.processCommand c s id message).reply = SMSHandler.invalidFormatReply ↔
      (messageParts message).length < 3) ∧
    ((messageParts message).length < 3 → (SMSHandler.processCommand c s id message).store = s) ∧
    (∀ message2, (messageParts message2).take 3 = (messageParts message).take 3 →
      SMSHandler.processCommand c s id message2 = SMSHandler.processCommand c s id message) := by
  refine ⟨?_, ?_, ?_⟩
  · rw [SMSHandler.processCommand_send c s id message hw hcmd]
    by_cases hlen : (messageParts message).length < 3
    · rw [SMSHandler.handleSend_short c s id _ hlen]
      exact ⟨fun _ => hlen, fun _ => rfl⟩
    · have hlong := SMSHandler.handleSend_long c s id _ (not_lt.mp hlen)
      constructor
      · intro h
        exfalso
        obtain ⟨reply, hr⟩ := SMSHandler.handleSend_ok c s id (messageParts message)
        rw [hr] at h hlong
        simp only at h
        exact hlong (by rw [h])
      · intro h
        exact absurd h hlen
  · intro hlen
    rw [SMSHandler.processCommand_send c s id message hw hcmd,
      SMSHandler.handleSend_short c s id _ hlen]
  · intro message2 h
    have hcmd2 : SMSHandler.commandOf c (messageParts message2) = "SEND" := by
      rw [← SMSHandler.commandOf_take3, h, SMSHandler.commandOf_take3, hcmd]
    have hsend : SMSHandler.handleSend c s id (messageParts message2) =
        SMSHandler.handleSend c s id (messageParts message) := by
      rw [← SMSHandler.handleSend_take3, h, SMSHandler.handleSend_take3]
    rw [SMSHandler.processCommand_send c s id message hw hcmd,
      SMSHandler.processCommand_send c s id message2 hw hcmd2, hsend]

/-- C10, amended, at the two-token message `SEND 0xabc` and at the four-token
message, which is handled as `SEND 0xAAAA...(40 hex) 1`. -/
theorem send_token_count_witness :
    (SMSHandler.processCommand sampleChain readyStore "+15550001" "SEND 0xabc").reply =
      SMSHandler.invalidFormatReply ∧
    SMSHandler.processCommand sampleChain readyStore "+15550001"
      "SEND 0xAAAAAAAAAAAAAAAAAAAAAAAAAAAAAAAAAAAAAAAA 1 extra" =
      SMSHandler.processCommand sampleChain readyStore "+15550001"
        "SEND 0xAAAAAAAAAAAAAAAAAAAAAAAAAAAAAAAAAAAAAAAA 1" :=
  ⟨(send_token_count sampleChain readyStore "+15550001" "SEND 0xabc" (by decide)
      (by decide)).1.2 (by decide),
    (send_token_count sampleChain readyStore "+15550001"
      "SEND 0xAAAAAAAAAAAAAAAAAAAAAAAAAAAAAAAAAAAAAAAA 1" (by decide) (by decide)).2.2
      "SEND 0xAAAAAAAAAAAAAAAAAAAAAAAAAAAAAAAAAAAAAAAA 1 extra" (by decide)⟩

/-! ## C4: two overlapping `CONFIRM`s -/

theorem sendTransactionCalls_append (l1 l2 : List Event) :
    sendTransactionCalls (l1 ++ l2) = sendTransactionCalls l1 ++ sendTransactionCalls l2 := by
  simp [sendTransactionCalls, List.filterMap_append]

theorem sendTransactionCalls_nil : sendTransactionCalls [] = [] := rfl

theorem sendTransactionCalls_hasWallet (p : String) (l : List Event) :
    sendTransactionCalls (Event.hasWallet p :: l) = sendTransactionCalls l := rfl

theorem sendTransactionCalls_send (p t a : String) (l : List Event) :
    sendTransactionCalls (Event.sendTransaction p t a :: l) =
      (p, t, a) :: sendTransactionCalls l := rfl

/-- Run one after the other, the two steps are `processCommand(id, "CONFIRM")`. -/
theorem runRace_alone (c1 c2 : Chain) (s : Store) (id : String) :
    (runRace c1 c2 id s [false, false]).first.reply? =
      some (SMSHandler.processCommand c1 s id "CONFIRM").reply ∧
    (runRace c1 c2 id s [false, false]).store =
      (SMSHandler.processCommand c1 s id "CONFIRM").store ∧
    (runRace c1 c2 id s [false, false]).log =
      (SMSHandler.processCommand c1 s id "CONFIRM").log := by
  by_cases hw : s.wallets.has id = true
  · rw [SMSHandler.processCommand_confirm c1 s id hw]
    cases hp : s.pendingTransactions.get id with
    | none =>
      simp [runRace, raceStep, taskStep, confirmBegin, WalletService.hasWallet, hw, hp,
        SMSHandler.handleConfirm, ConfirmTask.reply?]
    | some pending =>
      by_cases ht : c1.now - pending.timestamp > SMSHandler.ttlMs
      · rw [SMSHandler.handleConfirm_expired c1 s id pending hp ht]
        simp [runRace, raceStep, taskStep, confirmBegin, WalletService.hasWallet, hw, hp, ht,
          ConfirmTask.reply?]
      · rw [SMSHandler.handleConfirm_live c1 s id pending hp ht]
        cases hr : (WalletService.sendTransaction c1 s.wallets id pending.toAddress
          pending.amount).result with
        | error m =>
          simp [runRace, raceStep, taskStep, confirmBegin, confirmResume,
            WalletService.hasWallet, hw, hp, ht, hr, ConfirmTask.reply?]
        | ok result =>
          simp [runRace, raceStep, taskStep, confirmBegin, confirmResume,
            WalletService.hasWallet, hw, hp, ht, hr, ConfirmTask.reply?]
  · have hw0 : s.wallets.has id = false := by simpa using hw
    simp [runRace, raceStep, taskStep, confirmBegin, WalletService.hasWallet, hw0,
      SMSHandler.processCommand, SMSHandler.parts_confirm, SMSHandler.command_confirm,
      ConfirmTask.reply?]

/-- C4, as the claim states it, fails: in the sample state `+15550001` has one
live pending entry; when two calls of `processCommand(+15550001, "CONFIRM")`
each take their first step before either takes its second,
`walletService.sendTransaction` is called twice with that entry, two
transactions are broadcast, and the second call does not get the
no-pending-transaction reply. -/
theorem overlapping_confirms_send_twice :
    sampleStore.pendingTransactions.get "+15550001" =
      some ⟨sampleAddress, "1", 900000⟩ ∧
    sendTransactionCalls
      (runRace sampleChain sampleChain "+15550001" sampleStore
        [false, true, false, true]).log =
      [("+15550001", sampleAddress, "1"), ("+15550001", sampleAddress, "1")] ∧
    (broadcasts
      (runRace sampleChain sampleChain "+15550001" sampleStore
        [false, true, false, true]).log).length = 2 ∧
    (runRace sampleChain sampleChain "+15550001" sampleStore
      [false, true, false, true]).second.reply? ≠ some SMSHandler.noPendingReply := by
  refine ⟨by decide, by rfl, by rfl, by decide⟩

/-- C4, amended: for an identity with a wallet and one pending entry that is
live for both calls, two calls of `processCommand(id, "CONFIRM")` result in
exactly one call of `walletService.sendTransaction`, the second call getting
the no-pending-transaction reply, when the second call starts after the first
has returned; when each call takes its first step before either takes its
second (the code holds no lock per identity), each reads the same entry and
`walletService.sendTransaction` is called twice with the destination and the
amount of that entry. No entry of the identity is left in either case. -/
theorem overlapping_or_sequential_confirms (c1 c2 : Chain) (s : Store) (id : String)
    (pending : PendingTx) (hw : s.wallets.has id = true)
    (hp : s.pendingTransactions.get id = some pending)
    (h1 : c1.now - pending.timestamp ≤ 600000) (h2 : c2.now - pending.timestamp ≤ 600000) :
    (sendTransactionCalls (runRace c1 c2 id s [false, false, true, true]).log =
        [(id, pending.toAddress, pending.amount)] ∧
      (runRace c1 c2 id s [false, false, true, true]).second.reply? =
        some SMSHandler.noPendingReply ∧
      (runRace c1 c2 id s [false, false, true, true]).store.pendingTransactions.get id =
        none) ∧
    (∀ schedule, schedule ∈ overlappingSchedules →
      sendTransactionCalls (runRace c1 c2 id s schedule).log =
        [(id, pending.toAddress, pending.amount), (id, pending.toAddress, pending.amount)] ∧
      (runRace c1 c2 id s schedule).store.pendingTransactions.get id = none) := by
  have ht1 : ¬ c1.now - pending.timestamp > SMSHandler.ttlMs := by
    rw [SMSHandler.ttlMs_eq]; exact not_lt.mpr h1
  have ht2 : ¬ c2.now - pending.timestamp > SMSHandler.ttlMs := by
    rw [SMSHandler.ttlMs_eq]; exact not_lt.mpr h2
  have hc1 := WalletService.sendTransaction_calls c1 s.wallets id pending.toAddress
    pending.amount
  have hc2 := WalletService.sendTransaction_calls c2 s.wallets id pending.toAddress
    pending.amount
  have hdel : (s.pendingTransactions.delete id).get id = none := JSMap.get_delete_same _ _
  have hdel2 : ((s.pendingTransactions.delete id).delete id).get id = none :=
    JSMap.get_delete_same _ _
  constructor
  · cases hr : (WalletService.sendTransaction c1 s.wallets id pending.toAddress
      pending.amount).result <;>
    simp [runRace, raceStep, taskStep, confirmBegin, confirmResume, WalletService.hasWallet,
      hw, hp, ht1, hr, hdel, ConfirmTask.reply?, sendTransactionCalls_append, hc1,
      sendTransactionCalls_nil, sendTransactionCalls_hasWallet, sendTransactionCalls_send]
  · intro schedule hs
    simp only [overlappingSchedules, List.mem_cons, List.mem_singleton, List.not_mem_nil,
      or_false] at hs
    rcases hs with rfl | rfl | rfl | rfl <;>
    cases hr1 : (WalletService.sendTransaction c1 s.wallets id pending.toAddress
      pending.amount).result <;>
    cases hr2 : (WalletService.sendTransaction c2 s.wallets id pending.toAddress
      pending.amount).result <;>
    simp [runRace, raceStep, taskStep, confirmBegin, confirmResume, WalletService.hasWallet,
      hw, hp, ht1, ht2, hr1, hr2, hdel2, sendTransactionCalls_append, hc1, hc2,
      sendTransactionCalls_nil, sendTransactionCalls_hasWallet, sendTransactionCalls_send]

/-- C4, amended, at the sample state: run one after the other the two calls
make one transfer, and the second is told that nothing is pending. -/
theorem overlapping_or_sequential_confirms_witness :
    sendTransactionCalls
      (runRace sampleChain sampleChain "+15550001" sampleStore
        [false, false, true, true]).log = [("+15550001", sampleAddress, "1")] ∧
    (runRace sampleChain sampleChain "+15550001" sampleStore
      [false, false, true, true]).second.reply? = some SMSHandler.noPendingReply ∧
    (runRace sampleChain sampleChain "+15550001" sampleStore
      [false, false, true, true]).store.pendingTransactions.get "+15550001" = none :=
  (overlapping_or_sequential_confirms sampleChain sampleChain sampleStore "+15550001"
    ⟨sampleAddress, "1", 900000⟩ (by decide) (by decide) (by decide) (by decide)).1

/-! ## C11: error text in the reply -/

theorem SMSHandler.handleStart_same (c1 c2 : Chain) (h : SameUpToErrorText c1 c2) (s : Store)
    (id : String) :
    (SMSHandler.handleStart c1 s id).result = (SMSHandler.handleStart c2 s id).result ∧
    (SMSHandler.handleStart c1 s id).store = (SMSHandler.handleStart c2 s id).store := by
  unfold SMSHandler.handleStart
  by_cases hw : WalletService.hasWallet s.wallets id = true
  · simp [hw]
  · have hw0 : s.wallets.has id = false := by
      simpa [WalletService.hasWallet] using hw
    simp only [hw, if_false]
    have hr := h.createRandom
    unfold WalletService.createWallet WalletService.createWalletBody
      WalletService.encryptPrivateKey WalletService.derivedKey
    simp only [hw0, if_false, Bool.false_eq_true]
    rw [h.encryptionKey, h.isoDate]
    cases h1 : c1.createRandom with
    | error m1 =>
      cases h2 : c2.createRandom with
      | error m2 => simp
      | ok v2 => rw [h1, h2] at hr; exact absurd hr (by simp [sameUpToMessage])
    | ok v1 =>
      cases h2 : c2.createRandom with
      | error m2 => rw [h1, h2] at hr; exact absurd hr (by simp [sameUpToMessage])
      | ok v2 =>
        rw [h1, h2] at hr
        have hv : v1 = v2 := by simpa [sameUpToMessage] using hr
        subst hv
        obtain ⟨address, privateKey⟩ := v1
        have he := h.aesEncrypt privateKey (c2.encryptionKey ++ "-" ++ id)
        simp only []
        cases h3 : c1.aesEncrypt privateKey (c2.encryptionKey ++ "-" ++ id) with
        | error m1 =>
          cases h4 : c2.aesEncrypt privateKey (c2.encryptionKey ++ "-" ++ id) with
          | error m2 => simp
          | ok e2 => rw [h3, h4] at he; exact absurd he (by simp [sameUpToMessage])
        | ok e1 =>
          cases h4 : c2.aesEncrypt privateKey (c2.encryptionKey ++ "-" ++ id) with
          | error m2 => rw [h3, h4] at he; exact absurd he (by simp [sameUpToMessage])
          | ok e2 =>
            rw [h3, h4] at he
            have hv : e1 = e2 := by simpa [sameUpToMessage] using he
            subst hv
            simp

theorem SMSHandler.handleBalance_same (c1 c2 : Chain) (h : SameUpToErrorText c1 c2) (s : Store)
    (id : String) :
    (SMSHandler.handleBalance c1 s id).result = (SMSHandler.handleBalance c2 s id).result ∧
    (SMSHandler.handleBalance c1 s id).store = (SMSHandler.handleBalance c2 s id).store := by
  unfold SMSHandler.handleBalance WalletService.getBalance WalletService.getBalanceBody
  rw [h.formatFixed4]
  cases s.wallets.get id with
  | none => simp
  | some walletData =>
    have hb := h.getBalance walletData.address
    have hn := h.getNetwork
    simp only []
    cases h1 : c1.getBalance walletData.address with
    | error m1 =>
      cases h2 : c2.getBalance walletData.address with
      | error m2 => simp
      | ok v2 => rw [h1, h2] at hb; exact absurd hb (by simp [sameUpToMessage])
    | ok v1 =>
      cases h2 : c2.getBalance walletData.address with
      | error m2 => rw [h1, h2] at hb; exact absurd hb (by simp [sameUpToMessage])
      | ok v2 =>
        rw [h1, h2] at hb
        have hv : v1 = v2 := by simpa [sameUpToMessage] using hb
        subst hv
        simp only []
        cases h3 : c1.getNetwork with
        | error m1 =>
          cases h4 : c2.getNetwork with
          | error m2 => simp
          | ok e2 => rw [h3, h4] at hn; exact absurd hn (by simp [sameUpToMessage])
        | ok e1 =>
          cases h4 : c2.getNetwork with
          | error m2 => rw [h3, h4] at hn; exact absurd hn (by simp [sameUpToMessage])
          | ok e2 =>
            rw [h3, h4] at hn
            have hv : e1 = e2 := by simpa [sameUpToMessage] using hn
            subst hv
            simp

theorem SMSHandler.handleHistory_same (c1 c2 : Chain) (s : Store) (id : String) :
    (SMSHandler.handleHistory c1 s id).result = (SMSHandler.handleHistory c2 s id).result ∧
    (SMSHandler.handleHistory c1 s id).store = (SMSHandler.handleHistory c2 s id).store := by
  unfold SMSHandler.handleHistory WalletService.getTransactionHistory
  cases s.wallets.get id with
  | none => simp
  | some walletData =>
    cases c1.getBlockNumber <;> cases c2.getBlockNumber <;> simp

theorem SMSHandler.handleSend_same (c1 c2 : Chain) (h : SameUpToErrorText c1 c2) (s : Store)
    (id : String) (parts : List String) :
    SMSHandler.handleSend c1 s id parts = SMSHandler.handleSend c2 s id parts := by
  unfold SMSHandler.handleSend
  rw [h.now]

theorem SMSHandler.commandOf_same (c1 c2 : Chain) (h : SameUpToErrorText c1 c2)
    (parts : List String) : SMSHandler.commandOf c1 parts = SMSHandler.commandOf c2 parts := by
  unfold SMSHandler.commandOf
  rw [h.upperTable]

theorem SMSHandler.dispatch_same (c1 c2 : Chain) (h : SameUpToErrorText c1 c2) (s : Store)
    (id cmd : String) (parts : List String) (hcmd : cmd ≠ "CONFIRM") :
    (SMSHandler.dispatch c1 s id cmd parts).result =
      (SMSHandler.dispatch c2 s id cmd parts).result ∧
    (SMSHandler.dispatch c1 s id cmd parts).store =
      (SMSHandler.dispatch c2 s id cmd parts).store := by
  unfold SMSHandler.dispatch
  simp only [hcmd, if_false]
  split_ifs
  · exact SMSHandler.handleStart_same c1 c2 h s id
  · exact SMSHandler.handleBalance_same c1 c2 h s id
  · exact ⟨rfl, rfl⟩
  · rw [SMSHandler.handleSend_same c1 c2 h s id parts]
    exact ⟨rfl, rfl⟩
  · exact ⟨rfl, rfl⟩
  · exact SMSHandler.handleHistory_same c1 c2 s id
  · exact ⟨rfl, rfl⟩
  · exact ⟨rfl, rfl⟩

/-- The reply and the store of `processCommand` are those of the `switch`,
with a thrown error rendered as `Error: ` and its message. -/
theorem SMSHandler.processCommand_reply_store (c : Chain) (s : Store) (id message : String) :
    (SMSHandler.processCommand c s id message).reply = SMSHandler.onboardingReply ∧
      (SMSHandler.processCommand c s id message).store = s ∨
    (SMSHandler.processCommand c s id message).reply =
        (match (SMSHandler.dispatch c s id (SMSHandler.commandOf c (messageParts message))
            (messageParts message)).result with
          | Except.ok reply => reply
          | Except.error m => "Error: " ++ m) ∧
      (SMSHandler.processCommand c s id message).store =
        (SMSHandler.dispatch c s id (SMSHandler.commandOf c (messageParts message))
          (messageParts message)).store := by
  unfold SMSHandler.processCommand
  dsimp only
  split_ifs
  · left; exact ⟨rfl, rfl⟩
  · right
    cases (SMSHandler.dispatch c s id (SMSHandler.commandOf c (messageParts message))
      (messageParts message)).result <;> exact ⟨rfl, rfl⟩
  · right
    cases (SMSHandler.dispatch c s id (SMSHandler.commandOf c (messageParts message))
      (messageParts message)).result <;> exact ⟨rfl, rfl⟩

/-- The other paths: for every message whose command is not `CONFIRM`, two
runs that differ only in the message of the errors raised inside the wallet
service or the gateway return the same reply and leave the same state. -/
theorem SMSHandler.processCommand_same (c1 c2 : Chain) (h : SameUpToErrorText c1 c2)
    (s : Store) (id message : String)
    (hcmd : SMSHandler.commandOf c1 (messageParts message) ≠ "CONFIRM") :
    (SMSHandler.processCommand c1 s id message).reply =
      (SMSHandler.processCommand c2 s id message).reply ∧
    (SMSHandler.processCommand c1 s id message).store =
      (SMSHandler.processCommand c2 s id message).store := by
  have hc := SMSHandler.commandOf_same c1 c2 h (messageParts message)
  have hd := SMSHandler.dispatch_same c1 c2 h s id
    (SMSHandler.commandOf c1 (messageParts message)) (messageParts message) hcmd
  unfold SMSHandler.processCommand
  dsimp only
  rw [← hc, ← hd.1, ← hd.2]
  split_ifs
  · exact ⟨rfl, rfl⟩
  · cases (SMSHandler.dispatch c1 s id (SMSHandler.commandOf c1 (messageParts message))
      (messageParts message)).result <;> exact ⟨rfl, rfl⟩
  · cases (SMSHandler.dispatch c1 s id (SMSHandler.commandOf c1 (messageParts message))
      (messageParts message)).result <;> exact ⟨rfl, rfl⟩

/-- The reply of a `CONFIRM` whose transfer throws: `Error: `, the
`Transaction failed: ` of `handleConfirm`, the `Transaction failed: ` of
`sendTransaction`, and the message of the error raised inside it. -/
theorem SMSHandler.processCommand_confirm_error (c : Chain) (s : Store) (id : String)
    (pending : PendingTx) (m : String) (hw : s.wallets.has id = true)
    (hp : s.pendingTransactions.get id = some pending)
    (ht : c.now - pending.timestamp ≤ 600000)
    (hm : (WalletService.sendTransactionBody c s.wallets id pending.toAddress
      pending.amount).result = Except.error m) :
    (SMSHandler.processCommand c s id "CONFIRM").reply =
      "Error: " ++ ("Transaction failed: " ++ ("Transaction failed: " ++ m)) := by
  have ht1 : ¬ c.now - pending.timestamp > SMSHandler.ttlMs := by
    rw [SMSHandler.ttlMs_eq]; exact not_lt.mpr ht
  rw [SMSHandler.processCommand_confirm c s id hw,
    SMSHandler.handleConfirm_live c s id pending hp ht1,
    WalletService.sendTransaction_result, hm]

/-- C11: the code breaks the claim on the `CONFIRM` path. Two worlds that differ
only in the message of the error of the balance lookup give two different
replies to `CONFIRM`, each ending with that message, while `BALANCE`, whose
handler throws a fixed text as the other handlers do, gets one and the same
reply in both worlds. -/
theorem confirm_reply_carries_error_text :
    SameUpToErrorText (failingChain "timeout") (failingChain "node 10.0.0.7 refused") ∧
    (SMSHandler.processCommand (failingChain "timeout") sampleStore "+15550001"
      "CONFIRM").reply = "Error: Transaction failed: Transaction failed: timeout" ∧
    (SMSHandler.processCommand (failingChain "node 10.0.0.7 refused") sampleStore "+15550001"
      "CONFIRM").reply =
      "Error: Transaction failed: Transaction failed: node 10.0.0.7 refused" ∧
    (SMSHandler.processCommand (failingChain "timeout") sampleStore "+15550001"
      "CONFIRM").reply ≠
      (SMSHandler.processCommand (failingChain "node 10.0.0.7 refused") sampleStore
        "+15550001" "CONFIRM").reply ∧
    (SMSHandler.processCommand (failingChain "timeout") sampleStore "+15550001"
      "BALANCE").reply = "Error: Failed to fetch balance. Please try again." ∧
    (SMSHandler.processCommand (failingChain "node 10.0.0.7 refused") sampleStore "+15550001"
      "BALANCE").reply = "Error: Failed to fetch balance. Please try again." :=
  ⟨⟨rfl, rfl, rfl, rfl, rfl, fun _ _ => rfl, fun _ _ => rfl, fun _ => rfl, rfl, fun _ => rfl,
      fun _ => trivial, rfl, fun _ _ => rfl, rfl, rfl, rfl, rfl⟩,
    by rfl, by rfl, by decide, by rfl, by rfl⟩

/-! ## C12: `processCommand` always returns a reply -/

theorem jsSplitGo_ne_nil (l : List Char) : ∀ (cur : List Char) (inWS : Bool),
    jsSplitGo l cur inWS ≠ [] := by
  induction l with
  | nil => intro cur inWS; simp [jsSplitGo]
  | cons x xs ih =>
    intro cur inWS
    unfold jsSplitGo
    split_ifs
    · exact ih [] true
    · exact List.cons_ne_nil _ _
    · exact ih (x :: cur) false

/-- The array of `message.trim().split(/\s+/)` is never empty. -/
theorem messageParts_ne_nil (message : String) : messageParts message ≠ [] :=
  jsSplitGo_ne_nil _ [] false

/-- C12: for every identity, state, answer of the outside world and message
string, the empty and the all-blank ones included, `parts[0]` is a string, so
nothing throws before the `try`, and `processCommand` returns a reply: the
onboarding prompt, the reply of the handler, or `Error: ` and the message of
the error the handler threw. -/
theorem processCommand_always_replies (c : Chain) (s : Store) (id message : String) :
    messageParts message ≠ [] ∧
    SMSHandler.processCommandChecked c s id message =
      Except.ok (SMSHandler.processCommand c s id message) ∧
    ((SMSHandler.processCommand c s id message).reply = SMSHandler.onboardingReply ∨
      (SMSHandler.processCommand c s id message).reply =
        (match (SMSHandler.dispatch c s id (SMSHandler.commandOf c (messageParts message))
            (messageParts message)).result with
          | Except.ok reply => reply
          | Except.error m => "Error: " ++ m)) := by
  refine ⟨messageParts_ne_nil message, ?_, ?_⟩
  · unfold SMSHandler.processCommandChecked
    cases hp : messageParts message with
    | nil => exact absurd hp (messageParts_ne_nil message)
    | cons p0 rest => rfl
  · rcases SMSHandler.processCommand_reply_store c s id message with h | h
    · exact Or.inl h.1
    · exact Or.inr h.1

/-! ## C13: when the private key is decrypted -/

theorem decryptions_append (l1 l2 : List Event) :
    decryptions (l1 ++ l2) = decryptions l1 ++ decryptions l2 := by
  simp [decryptions, List.filterMap_append]

theorem WalletService.getWallet_decryptions (c : Chain) (w : JSMap WalletRecord) (p : String) :
    decryptions (WalletService.getWallet c w p).log =
      match w.get p with
      | none => []
      | some _ => [p] := by
  unfold WalletService.getWallet
  cases w.get p with
  | none => rfl
  | some walletData =>
    dsimp only
    repeat' split
    all_goals rfl

theorem WalletService.sendTransaction_decryptions (c : Chain) (w : JSMap WalletRecord)
    (p t a : String) :
    decryptions (WalletService.sendTransaction c w p t a).log =
      match w.get p with
      | none => []
      | some _ => [p] := by
  rw [WalletService.sendTransaction_log, ← WalletService.getWallet_decryptions c w p]
  unfold WalletService.sendTransactionBody
  dsimp only
  cases hgw : WalletService.getWallet c w p with
  | mk res log0 =>
    cases res with
    | error m => rfl
    | ok addr =>
      dsimp only
      repeat' split
      all_goals simp only [decryptions_append]
      all_goals simp [decryptions]

/-- C13, as the claim states it, fails: a call of `sendTransaction` that fails
at the destination check, one that fails at the balance lookup and one that
fails at the balance check have each decrypted the private key before. -/
theorem failing_transfer_has_decrypted :
    (WalletService.sendTransaction strictChain sampleStore.wallets "+15550001" sampleAddress
      "1").result = Except.error "Transaction failed: Invalid recipient address" ∧
    decryptions (WalletService.sendTransaction strictChain sampleStore.wallets "+15550001"
      sampleAddress "1").log = ["+15550001"] ∧
    (WalletService.sendTransaction (failingChain "timeout") sampleStore.wallets "+15550001"
      sampleAddress "1").result = Except.error "Transaction failed: timeout" ∧
    decryptions (WalletService.sendTransaction (failingChain "timeout") sampleStore.wallets
      "+15550001" sampleAddress "1").log = ["+15550001"] ∧
    (WalletService.sendTransaction tightChain sampleStore.wallets "+15550001" sampleAddress
      "1").result =
      Except.error "Transaction failed: Insufficient balance for transaction + gas" ∧
    decryptions (WalletService.sendTransaction tightChain sampleStore.wallets "+15550001"
      sampleAddress "1").log = ["+15550001"] :=
  ⟨by rfl, by decide, by rfl, by decide, by rfl, by decide⟩

/-- C13, amended: `sendTransaction` decrypts the private key first, in
`getWallet`, before the destination check, the conversion of the amount, the
balance lookup and the balance checks: a call for an identity that has a
wallet record decrypts the key exactly once, however the call ends, and a
call for an identity without a wallet record decrypts nothing. -/
theorem sendTransaction_decrypts_first (c : Chain) (wallets : JSMap WalletRecord)
    (phoneNumber toAddress amount : String) :
    (wallets.get phoneNumber = none →
      decryptions (WalletService.sendTransaction c wallets phoneNumber toAddress amount).log
        = []) ∧
    (wallets.get phoneNumber ≠ none →
      decryptions (WalletService.sendTransaction c wallets phoneNumber toAddress amount).log
        = [phoneNumber]) := by
  rw [WalletService.sendTransaction_decryptions]
  constructor
  · intro h
    rw [h]
  · intro h
    cases hg : wallets.get phoneNumber with
    | none => exact absurd hg h
    | some _ => rfl

/-- C13, amended, at the sample state: the call for `+15550001`, which has a
wallet, decrypts once before it fails at the destination check; the call for
`+15550002`, which has none, decrypts nothing. -/
theorem sendTransaction_decrypts_first_witness :
    decryptions (WalletService.sendTransaction strictChain sampleStore.wallets "+15550001"
      sampleAddress "1").log = ["+15550001"] ∧
    decryptions (WalletService.sendTransaction strictChain sampleStore.wallets "+15550002"
      sampleAddress "1").log = [] :=
  ⟨(sendTransaction_decrypts_first strictChain sampleStore.wallets "+15550001" sampleAddress
      "1").2 (by decide),
    (sendTransaction_decrypts_first strictChain sampleStore.wallets "+15550002" sampleAddress
      "1").1 (by decide)⟩

/-! ## C14: `SEND` is last-write-wins -/

theorem JSMap.occurrences_insert_same {α : Type} (k : String) (v : α) (l : List (String × α))
    (h : JSMap.occurrences k l ≤ 1) : JSMap.occurrences k (JSMap.insert k v l) = 1 := by
  induction l with
  | nil => simp [JSMap.insert, JSMap.occurrences]
  | cons e rest ih =>
    obtain ⟨k1, v1⟩ := e
    by_cases h1 : k1 = k
    · subst h1
      simp only [JSMap.occurrences, if_true] at h
      simp only [JSMap.insert, if_true, JSMap.occurrences]
      omega
    · simp only [JSMap.occurrences, h1, if_false, Nat.zero_add] at h
      simp only [JSMap.insert, h1, if_false, JSMap.occurrences, Nat.zero_add]
      exact ih h

theorem JSMap.occurrences_insert_other {α : Type} (k j : String) (v : α)
    (l : List (String × α)) (h : j ≠ k) :
    JSMap.occurrences j (JSMap.insert k v l) = JSMap.occurrences j l := by
  induction l with
  | nil => simp [JSMap.insert, JSMap.occurrences, Ne.symm h]
  | cons e rest ih =>
    obtain ⟨k1, v1⟩ := e
    by_cases h1 : k1 = k
    · subst h1
      simp [JSMap.insert, JSMap.occurrences, Ne.symm h]
    · simp [JSMap.insert, h1, JSMap.occurrences, ih]

theorem JSMap.occurrences_remove_le {α : Type} (k j : String) (l : List (String × α)) :
    JSMap.occurrences j (JSMap.remove k l) ≤ JSMap.occurrences j l := by
  induction l with
  | nil => simp [JSMap.remove]
  | cons e rest ih =>
    obtain ⟨k1, v1⟩ := e
    by_cases h1 : k1 = k
    · simp only [JSMap.remove, h1, if_true, JSMap.occurrences]
      omega
    · simp only [JSMap.remove, h1, if_false, JSMap.occurrences]
      omega

theorem JSMap.count_set_same {α : Type} (m : JSMap α) (k : String) (v : α)
    (h : m.count k ≤ 1) : (m.set k v).count k = 1 :=
  JSMap.occurrences_insert_same k v m.entries h

theorem JSMap.count_set_other {α : Type} (m : JSMap α) (k j : String) (v : α) (h : j ≠ k) :
    (m.set k v).count j = m.count j :=
  JSMap.occurrences_insert_other k j v m.entries h

theorem JSMap.count_delete_le {α : Type} (m : JSMap α) (k j : String) :
    (m.delete k).count j ≤ m.count j :=
  JSMap.occurrences_remove_le k j m.entries

/-- What `processCommand` does with a valid `SEND` from an identity that has a
wallet. -/
theorem SMSHandler.processCommand_send_valid (c : Chain) (s : Store) (id message : String)
    (hw : s.wallets.has id = true)
    (hcmd : SMSHandler.commandOf c (messageParts message) = "SEND")
    (hlen : 3 ≤ (messageParts message).length)
    (h0x : startsWith0x ((messageParts message).getD 1 "") = true)
    (h42 : jsLength ((messageParts message).getD 1 "") = 42)
    (hamt : amountRejected ((messageParts message).getD 2 "") = false) :
    SMSHandler.processCommand c s id message =
      ⟨SMSHandler.sendPromptReply ((messageParts message).getD 1 "")
          ((messageParts message).getD 2 ""),
        { s with pendingTransactions :=
            (s.pendingTransactions.set id
              ⟨(messageParts message).getD 1 "", (messageParts message).getD 2 "", c.now⟩) },
        [Event.hasWallet id]⟩ := by
  rw [SMSHandler.processCommand_send c s id message hw hcmd,
    SMSHandler.handleSend_accept c s id _ hlen h0x h42 hamt]

/-- C14: for an identity with a wallet and two valid `SEND` messages processed
one after the other, the pending-transfer map then holds exactly one entry
for the identity, with the destination and the amount of the second message
and the time of the second message; the entry of every other identity is the
one it was. The map is taken to hold at most one entry for the identity
before, as every `Map` does. -/
theorem second_send_overwrites (c1 c2 : Chain) (s : Store) (id message1 message2 : String)
    (hw : s.wallets.has id = true) (hone : s.pendingTransactions.count id ≤ 1)
    (hcmd1 : SMSHandler.commandOf c1 (messageParts message1) = "SEND")
    (hlen1 : 3 ≤ (messageParts message1).length)
    (h0x1 : startsWith0x ((messageParts message1).getD 1 "") = true)
    (h421 : jsLength ((messageParts message1).getD 1 "") = 42)
    (hamt1 : amountRejected ((messageParts message1).getD 2 "") = false)
    (hcmd2 : SMSHandler.commandOf c2 (messageParts message2) = "SEND")
    (hlen2 : 3 ≤ (messageParts message2).length)
    (h0x2 : startsWith0x ((messageParts message2).getD 1 "") = true)
    (h422 : jsLength ((messageParts message2).getD 1 "") = 42)
    (hamt2 : amountRejected ((messageParts message2).getD 2 "") = false) :
    (SMSHandler.processCommand c2 (SMSHandler.processCommand c1 s id message1).store id
        message2).store.pendingTransactions.get id =
      some ⟨(messageParts message2).getD 1 "", (messageParts message2).getD 2 "", c2.now⟩ ∧
    (SMSHandler.processCommand c2 (SMSHandler.processCommand c1 s id message1).store id
        message2).store.pendingTransactions.count id = 1 ∧
    ∀ j, j ≠ id →
      (SMSHandler.processCommand c2 (SMSHandler.processCommand c1 s id message1).store id
          message2).store.pendingTransactions.get j = s.pendingTransactions.get j := by
  rw [SMSHandler.processCommand_send_valid c1 s id message1 hw hcmd1 hlen1 h0x1 h421 hamt1]
  dsimp only
  have hw1 : ({ s with pendingTransactions :=
      (s.pendingTransactions.set id
        ⟨(messageParts message1).getD 1 "", (messageParts message1).getD 2 "", c1.now⟩) } :
      Store).wallets.has id = true := hw
  rw [SMSHandler.processCommand_send_valid c2 _ id message2 hw1 hcmd2 hlen2 h0x2 h422 hamt2]
  dsimp only
  refine ⟨JSMap.get_set_same _ _ _, ?_, ?_⟩
  · apply JSMap.count_set_same
    exact le_of_eq (JSMap.count_set_same _ _ _ hone)
  · intro j hj
    rw [JSMap.get_set_other _ _ _ _ hj, JSMap.get_set_other _ _ _ _ hj]

/-- C14 at the sample state: after `SEND 0xAAAA...(40 hex) 1` at time `1000000`
and `SEND 0xBBBB...(40 hex) 2` at time `1000007`, the entry of `+15550001` is
the second transfer and the entry of `+15550002` is untouched. -/
theorem second_send_overwrites_witness :
    (SMSHandler.processCommand { sampleChain with now := 1000007 }
        (SMSHandler.processCommand sampleChain sampleStore "+15550001"
          "SEND 0xAAAAAAAAAAAAAAAAAAAAAAAAAAAAAAAAAAAAAAAA 1").store "+15550001"
        "SEND 0xBBBBBBBBBBBBBBBBBBBBBBBBBBBBBBBBBBBBBBBB 2").store.pendingTransactions =
      ⟨[("+15550001", ⟨"0xBBBBBBBBBBBBBBBBBBBBBBBBBBBBBBBBBBBBBBBB", "2", 1000007⟩),
        ("+15550002", ⟨sampleAddress, "2", 5⟩)]⟩ ∧
    (SMSHandler.processCommand { sampleChain with now := 1000007 }
        (SMSHandler.processCommand sampleChain sampleStore "+15550001"
          "SEND 0xAAAAAAAAAAAAAAAAAAAAAAAAAAAAAAAAAAAAAAAA 1").store "+15550001"
        "SEND 0xBBBBBBBBBBBBBBBBBBBBBBBBBBBBBBBBBBBBBBBB 2").store.pendingTransactions.count
      "+15550001" = 1 :=
  ⟨by rfl,
    (second_send_overwrites sampleChain { sampleChain with now := 1000007 } sampleStore
      "+15550001" "SEND 0xAAAAAAAAAAAAAAAAAAAAAAAAAAAAAAAAAAAAAAAA 1"
      "SEND 0xBBBBBBBBBBBBBBBBBBBBBBBBBBBBBBBBBBBBBBBB 2" (by decide) (by decide) (by decide)
      (by decide) (by decide) (by decide) (by decide) (by decide) (by decide) (by decide)
      (by decide) (by decide)).2.1⟩

/-! ## C15: `CANCEL` -/

theorem SMSHandler.parts_cancel : messageParts "CANCEL" = ["CANCEL"] := by decide

theorem SMSHandler.command_cancel (c : Chain) : SMSHandler.commandOf c ["CANCEL"] = "CANCEL" :=
  rfl

/-- What `processCommand` does with the message `CANCEL` for an identity that
has a wallet: it runs `handleCancel`, which does not throw. -/
theorem SMSHandler.processCommand_cancel (c : Chain) (s : Store) (phoneNumber : String)
    (h : s.wallets.has phoneNumber = true) :
    SMSHandler.processCommand c s phoneNumber "CANCEL" =
      match s.pendingTransactions.get phoneNumber with
      | none => ⟨SMSHandler.nothingToCancelReply, s, [Event.hasWallet phoneNumber]⟩
      | some _ =>
        ⟨SMSHandler.cancelledReply,
          { s with pendingTransactions := s.pendingTransactions.delete phoneNumber },
          [Event.hasWallet phoneNumber]⟩ := by
  cases hp : s.pendingTransactions.get phoneNumber <;>
  simp [SMSHandler.processCommand, SMSHandler.parts_cancel, SMSHandler.command_cancel,
    SMSHandler.dispatch, SMSHandler.handleCancel, WalletService.hasWallet, h, hp]

/-- What `processCommand` does with `CONFIRM` when nothing is pending. -/
theorem SMSHandler.processCommand_confirm_none (c : Chain) (s : Store) (phoneNumber : String)
    (h : s.wallets.has phoneNumber = true) (hp : s.pendingTransactions.get phoneNumber = none) :
    SMSHandler.processCommand c s phoneNumber "CONFIRM" =
      ⟨SMSHandler.noPendingReply, s, [Event.hasWallet phoneNumber]⟩ := by
  rw [SMSHandler.processCommand_confirm c s phoneNumber h]
  simp [SMSHandler.handleConfirm, hp]

/-- C15: for an identity with a wallet, `processCommand(id, "CANCEL")` leaves no
pending entry for `id`, calls nothing of the wallet service but `hasWallet`,
leaves the wallet map and the entries of the other identities as they were,
and replies with the transaction-cancelled reply if and only if there was an
entry for `id`, with the nothing-to-cancel reply otherwise; a `CONFIRM`
processed next returns the no-pending-transaction reply. -/
theorem cancel_clears_pending (c c2 : Chain) (s : Store) (id : String)
    (hw : s.wallets.has id = true) :
    (SMSHandler.processCommand c s id "CANCEL").store.pendingTransactions.get id = none ∧
    (SMSHandler.processCommand c s id "CANCEL").log = [Event.hasWallet id] ∧
    (SMSHandler.processCommand c s id "CANCEL").store.wallets = s.wallets ∧
    (∀ j, j ≠ id →
      (SMSHandler.processCommand c s id "CANCEL").store.pendingTransactions.get j =
        s.pendingTransactions.get j) ∧
    ((SMSHandler.processCommand c s id "CANCEL").reply = SMSHandler.cancelledReply ↔
      s.pendingTransactions.get id ≠ none) ∧
    ((SMSHandler.processCommand c s id "CANCEL").reply = SMSHandler.nothingToCancelReply ↔
      s.pendingTransactions.get id = none) ∧
    (SMSHandler.processCommand c2 (SMSHandler.processCommand c s id "CANCEL").store id
      "CONFIRM").reply = SMSHandler.noPendingReply := by
  have hne : SMSHandler.nothingToCancelReply ≠ SMSHandler.cancelledReply := by decide
  rw [SMSHandler.processCommand_cancel c s id hw]
  cases hp : s.pendingTransactions.get id with
  | none =>
    refine ⟨hp, rfl, rfl, fun _ _ => rfl, ?_, ?_, ?_⟩
    · exact ⟨fun h => absurd h hne, fun h => absurd rfl h⟩
    · exact ⟨fun _ => rfl, fun _ => rfl⟩
    · rw [SMSHandler.processCommand_confirm_none c2 s id hw hp]
  | some pending =>
    have hdel : (s.pendingTransactions.delete id).get id = none := JSMap.get_delete_same _ _
    refine ⟨hdel, rfl, rfl, fun j hj => JSMap.get_delete_other _ _ _ hj, ?_, ?_, ?_⟩
    · exact ⟨fun _ => by simp, fun _ => rfl⟩
    · exact ⟨fun h => absurd h.symm hne, fun h => by simp at h⟩
    · exact congrArg Reply.reply (SMSHandler.processCommand_confirm_none c2
        { s with pendingTransactions := s.pendingTransactions.delete id } id hw hdel)

/-- C15 at the sample state, where `+15550001` has a pending entry, and at the
state where it has none. -/
theorem cancel_clears_pending_witness :
    (SMSHandler.processCommand sampleChain sampleStore "+15550001" "CANCEL").reply =
      SMSHandler.cancelledReply ∧
    (SMSHandler.processCommand sampleChain sampleStore "+15550001"
      "CANCEL").store.pendingTransactions.get "+15550001" = none ∧
    (SMSHandler.processCommand sampleChain readyStore "+15550001" "CANCEL").reply =
      SMSHandler.nothingToCancelReply ∧
    (SMSHandler.processCommand sampleChain
      (SMSHandler.processCommand sampleChain sampleStore "+15550001" "CANCEL").store
      "+15550001" "CONFIRM").reply = SMSHandler.noPendingReply :=
  ⟨(cancel_clears_pending sampleChain sampleChain sampleStore "+15550001"
      (by decide)).2.2.2.2.1.2 (by decide),
    (cancel_clears_pending sampleChain sampleChain sampleStore "+15550001" (by decide)).1,
    (cancel_clears_pending sampleChain sampleChain readyStore "+15550001"
      (by decide)).2.2.2.2.2.1.2 (by decide),
    (cancel_clears_pending sampleChain sampleChain sampleStore "+15550001"
      (by decide)).2.2.2.2.2.2⟩

/-! ## C16: what of the message selects the command -/

theorem dropWhile_all_append (p : Char → Bool) (l x : List Char) (h : l.all p = true) :
    (l ++ x).dropWhile p = x.dropWhile p := by
  induction l with
  | nil => rfl
  | cons a as ih =>
    simp only [List.all_cons, Bool.and_eq_true] at h
    simp [List.dropWhile, h.1, ih h.2]

theorem jsSplitGo_blank (w : List Char) (hw : w.all isJSWhiteSpace = true) (rest : List Char) :
    jsSplitGo (w ++ rest) [] true = jsSplitGo rest [] true := by
  induction w with
  | nil => rfl
  | cons a as ih =>
    simp only [List.all_cons, Bool.and_eq_true] at hw
    simp [jsSplitGo, hw.1, ih hw.2]

theorem jsSplitGo_separator (w : List Char) (hw : w.all isJSWhiteSpace = true) (hne : w ≠ [])
    (rest cur : List Char) :
    jsSplitGo (w ++ rest) cur false = String.mk cur.reverse :: jsSplitGo rest [] true := by
  cases w with
  | nil => exact absurd rfl hne
  | cons a as =>
    simp only [List.all_cons, Bool.and_eq_true] at hw
    simp [jsSplitGo, hw.1, jsSplitGo_blank as hw.2]

theorem token_data_ne_nil (t : String) (h : t ≠ "") : t.data ≠ [] := by
  intro h0
  apply h
  cases t
  simp_all

theorem jsSplitGo_spacedBody (rest : List (List Char × String)) :
    ∀ (first : String) (inWS : Bool), isToken first = true → first ≠ "" →
      (∀ p ∈ rest, p.1 ≠ [] ∧ p.1.all isJSWhiteSpace = true ∧ isToken p.2 = true ∧ p.2 ≠ "") →
      jsSplitGo (spacedBody first rest) [] inWS = first :: rest.map Prod.snd := by
  induction rest with
  | nil =>
    intro first inWS ht hne _
    have := jsSplitGo_token first.data ht [] [] inWS
    simp only [List.append_nil] at this
    simp [spacedBody, this, jsSplitGo]
  | cons p ps ih =>
    intro first inWS ht hne hrest
    have hp := hrest p (List.mem_cons_self _ _)
    have hps : ∀ q ∈ ps, q.1 ≠ [] ∧ q.1.all isJSWhiteSpace = true ∧ isToken q.2 = true ∧
        q.2 ≠ "" := fun q hq => hrest q (List.mem_cons_of_mem _ hq)
    have hfe : first.data.isEmpty = false := by
      cases hd : first.data with
      | nil => exact absurd hd (token_data_ne_nil first hne)
      | cons _ _ => rfl
    simp only [spacedBody, List.append_assoc]
    rw [jsSplitGo_token first.data ht, hfe, Bool.and_false,
      jsSplitGo_separator p.1 hp.2.1 hp.1, ih p.2 true hp.2.2.1 hp.2.2.2 hps]
    simp

theorem spacedBody_head (first : String) (rest : List (List Char × String))
    (ht : isToken first = true) (hne : first ≠ "") :
    ∃ x tail, spacedBody first rest = x :: tail ∧ isJSWhiteSpace x = false := by
  cases hd : first.data with
  | nil => exact absurd hd (token_data_ne_nil first hne)
  | cons x xs =>
    have hx : isJSWhiteSpace x = false := by
      have := List.all_eq_true.mp ht x (by rw [hd]; exact List.mem_cons_self _ _)
      simpa using this
    cases rest with
    | nil => exact ⟨x, xs, by simp [spacedBody, hd], hx⟩
    | cons p ps => exact ⟨x, xs ++ p.1 ++ spacedBody p.2 ps, by simp [spacedBody, hd], hx⟩

theorem spacedBody_last (rest : List (List Char × String)) :
    ∀ (first : String), isToken first = true → first ≠ "" →
      (∀ p ∈ rest, p.1 ≠ [] ∧ p.1.all isJSWhiteSpace = true ∧ isToken p.2 = true ∧ p.2 ≠ "") →
      ∃ init y, spacedBody first rest = init ++ [y] ∧ isJSWhiteSpace y = false := by
  induction rest with
  | nil =>
    intro first ht hne _
    have hd := token_data_ne_nil first hne
    refine ⟨first.data.dropLast, first.data.getLast hd, ?_, ?_⟩
    · simp [spacedBody, List.dropLast_append_getLast hd]
    · have := List.all_eq_true.mp ht (first.data.getLast hd) (List.getLast_mem hd)
      simpa using this
  | cons p ps ih =>
    intro first ht hne hrest
    have hp := hrest p (List.mem_cons_self _ _)
    have hps : ∀ q ∈ ps, q.1 ≠ [] ∧ q.1.all isJSWhiteSpace = true ∧ isToken q.2 = true ∧
        q.2 ≠ "" := fun q hq => hrest q (List.mem_cons_of_mem _ hq)
    obtain ⟨init, y, hb, hy⟩ := ih p.2 hp.2.2.1 hp.2.2.2 hps
    exact ⟨first.data ++ p.1 ++ init, y, by simp [spacedBody, hb], hy⟩

/-- The parts of a message written token by token are its tokens. -/
theorem messageParts_spaced (lead : List Char) (first : String)
    (rest : List (List Char × String)) (trail : List Char)
    (h : wellSpaced lead first rest trail) :
    messageParts (spaced lead first rest trail) = first :: rest.map Prod.snd := by
  obtain ⟨hl, htr, ht, hne, hrest⟩ := h
  obtain ⟨x, tail, hhead, hx⟩ := spacedBody_head first rest ht hne
  obtain ⟨init, y, hlast, hy⟩ := spacedBody_last rest first ht hne hrest
  have htrim : jsTrimChars (lead ++ spacedBody first rest ++ trail) = spacedBody first rest := by
    unfold jsTrimChars
    rw [List.append_assoc, dropWhile_all_append _ _ _ hl]
    have h1 : (spacedBody first rest ++ trail).dropWhile isJSWhiteSpace =
        spacedBody first rest ++ trail := by
      rw [hhead]
      simp [List.dropWhile, hx]
    rw [h1, List.reverse_append,
      dropWhile_all_append _ _ _ (by simpa using htr)]
    rw [hlast]
    simp [List.dropWhile, hy]
  unfold messageParts spaced jsSplitWS
  rw [htrim]
  exact jsSplitGo_spacedBody rest first false ht hne hrest

/-- A message of white space only has the one part `""`, as the empty message. -/
theorem messageParts_blank (lead : List Char) (h : lead.all isJSWhiteSpace = true) :
    messageParts (String.mk lead) = [""] := by
  unfold messageParts jsTrimChars
  have := dropWhile_all_append isJSWhiteSpace lead [] h
  simp only [List.append_nil] at this
  rw [this]
  rfl

theorem SMSHandler.handleSend_tail (c : Chain) (s : Store) (id p q : String)
    (t : List String) :
    SMSHandler.handleSend c s id (p :: t) = SMSHandler.handleSend c s id (q :: t) := rfl

theorem SMSHandler.dispatch_tail (c : Chain) (s : Store) (id cmd p q : String)
    (t : List String) :
    SMSHandler.dispatch c s id cmd (p :: t) = SMSHandler.dispatch c s id cmd (q :: t) := by
  unfold SMSHandler.dispatch
  rw [SMSHandler.handleSend_tail c s id p q t]

/-- `processCommand` looks at the message only through the upper-cased first
part and the parts after it. -/
theorem SMSHandler.processCommand_congr (c : Chain) (s : Store) (id message1 message2 : String)
    (hcmd : SMSHandler.commandOf c (messageParts message1) =
      SMSHandler.commandOf c (messageParts message2))
    (htail : (messageParts message1).tail = (messageParts message2).tail) :
    SMSHandler.processCommand c s id message1 = SMSHandler.processCommand c s id message2 := by
  cases h1 : messageParts message1 with
  | nil => exact absurd h1 (messageParts_ne_nil message1)
  | cons p t =>
    cases h2 : messageParts message2 with
    | nil => exact absurd h2 (messageParts_ne_nil message2)
    | cons q t2 =>
      rw [h1, h2] at htail hcmd
      simp only [List.tail_cons] at htail
      subst htail
      unfold SMSHandler.processCommand
      simp only [h1, h2]
      rw [hcmd, SMSHandler.dispatch_tail c s id _ p q t]

theorem SMSHandler.processCommand_bal (c : Chain) (s : Store) (id message1 message2 : String)
    (h1 : SMSHandler.commandOf c (messageParts message1) = "BAL")
    (h2 : SMSHandler.commandOf c (messageParts message2) = "BALANCE") :
    SMSHandler.processCommand c s id message1 = SMSHandler.processCommand c s id message2 := by
  simp [SMSHandler.processCommand, h1, h2, SMSHandler.dispatch]

theorem SMSHandler.processCommand_address (c : Chain) (s : Store)
    (id message1 message2 : String)
    (h1 : SMSHandler.commandOf c (messageParts message1) = "ADDRESS")
    (h2 : SMSHandler.commandOf c (messageParts message2) = "WALLET") :
    SMSHandler.processCommand c s id message1 = SMSHandler.processCommand c s id message2 := by
  simp [SMSHandler.processCommand, h1, h2, SMSHandler.dispatch]

theorem SMSHandler.processCommand_tx (c : Chain) (s : Store) (id message1 message2 : String)
    (h1 : SMSHandler.commandOf c (messageParts message1) = "TX")
    (h2 : SMSHandler.commandOf c (messageParts message2) = "HISTORY") :
    SMSHandler.processCommand c s id message1 = SMSHandler.processCommand c s id message2 := by
  simp [SMSHandler.processCommand, h1, h2, SMSHandler.dispatch]

/-- C16: `processCommand` looks at a message only through its upper-cased first
token and the tokens after it. Two messages whose first tokens have the same
upper-casing and whose other tokens are equal get the same reply, state and
calls; so do a `BAL` and a `BALANCE` message, an `ADDRESS` and a `WALLET`
message, a `TX` and a `HISTORY` message; so do two messages with the same
tokens, whatever the white space before, between and after them; and a
message of white space only is handled as the empty message. -/
theorem command_selection_by_first_token (c : Chain) (s : Store) (id : String) :
    (∀ message1 message2 t1 t2 rest,
      messageParts message1 = t1 :: rest → messageParts message2 = t2 :: rest →
      toUpperCase c.upperTable t1 = toUpperCase c.upperTable t2 →
      SMSHandler.processCommand c s id message1 = SMSHandler.processCommand c s id message2) ∧
    (∀ message1 message2,
      SMSHandler.commandOf c (messageParts message1) = "BAL" →
      SMSHandler.commandOf c (messageParts message2) = "BALANCE" →
      SMSHandler.processCommand c s id message1 = SMSHandler.processCommand c s id message2) ∧
    (∀ message1 message2,
      SMSHandler.commandOf c (messageParts message1) = "ADDRESS" →
      SMSHandler.commandOf c (messageParts message2) = "WALLET" →
      SMSHandler.processCommand c s id message1 = SMSHandler.processCommand c s id message2) ∧
    (∀ message1 message2,
      SMSHandler.commandOf c (messageParts message1) = "TX" →
      SMSHandler.commandOf c (messageParts message2) = "HISTORY" →
      SMSHandler.processCommand c s id message1 = SMSHandler.processCommand c s id message2) ∧
    (∀ lead1 trail1 rest1 lead2 trail2 rest2 first,
      wellSpaced lead1 first rest1 trail1 → wellSpaced lead2 first rest2 trail2 →
      rest1.map Prod.snd = rest2.map Prod.snd →
      SMSHandler.processCommand c s id (spaced lead1 first rest1 trail1) =
        SMSHandler.processCommand c s id (spaced lead2 first rest2 trail2)) ∧
    (∀ lead, lead.all isJSWhiteSpace = true →
      SMSHandler.processCommand c s id (String.mk lead) = SMSHandler.processCommand c s id "") := by
  refine ⟨?_, ?_, ?_, ?_, ?_, ?_⟩
  · intro message1 message2 t1 t2 rest h1 h2 hup
    apply SMSHandler.processCommand_congr
    · rw [h1, h2]
      exact hup
    · rw [h1, h2]
      rfl
  · intro message1 message2 h1 h2
    exact SMSHandler.processCommand_bal c s id message1 message2 h1 h2
  · intro message1 message2 h1 h2
    exact SMSHandler.processCommand_address c s id message1 message2 h1 h2
  · intro message1 message2 h1 h2
    exact SMSHandler.processCommand_tx c s id message1 message2 h1 h2
  · intro lead1 trail1 rest1 lead2 trail2 rest2 first hw1 hw2 hrest
    have h1 := messageParts_spaced lead1 first rest1 trail1 hw1
    have h2 := messageParts_spaced lead2 first rest2 trail2 hw2
    apply SMSHandler.processCommand_congr
    · rw [h1, h2]
      rfl
    · rw [h1, h2]
      exact hrest
  · intro lead hl
    have h1 := messageParts_blank lead hl
    apply SMSHandler.processCommand_congr
    · rw [h1]
      rfl
    · rw [h1]
      rfl

/-- C16 at the sample state: `Confirm` is handled as `CONFIRM`, `bal` as
`BALANCE`, and a `SEND` with blanks and a tab around its tokens as the same
`SEND` with single blanks. -/
theorem command_selection_by_first_token_witness :
    SMSHandler.processCommand sampleChain sampleStore "+15550001" "Confirm" =
      SMSHandler.processCommand sampleChain sampleStore "+15550001" "CONFIRM" ∧
    SMSHandler.processCommand sampleChain sampleStore "+15550001" "bal" =
      SMSHandler.processCommand sampleChain sampleStore "+15550001" "BALANCE" ∧
    SMSHandler.processCommand sampleChain sampleStore "+15550001"
        (spaced [' ', ' '] "SEND" [([' ', '\t'], sampleAddress), ([' ', ' ', ' '], "1")]
          [' ', '\n']) =
      SMSHandler.processCommand sampleChain sampleStore "+15550001"
        (spaced [] "SEND" [([' '], sampleAddress), ([' '], "1")] []) ∧
    spaced [] "SEND" [([' '], sampleAddress), ([' '], "1")] [] =
      "SEND 0xAAAAAAAAAAAAAAAAAAAAAAAAAAAAAAAAAAAAAAAA 1" :=
  ⟨(command_selection_by_first_token sampleChain sampleStore "+15550001").1 "Confirm"
      "CONFIRM" "Confirm" "CONFIRM" [] (by decide) (by decide) (by decide),
    (command_selection_by_first_token sampleChain sampleStore "+15550001").2.1 "bal"
      "BALANCE" (by decide) (by decide),
    (command_selection_by_first_token sampleChain sampleStore "+15550001").2.2.2.2.1
      [' ', ' '] [' ', '\n'] [([' ', '\t'], sampleAddress), ([' ', ' ', ' '], "1")]
      [] [] [([' '], sampleAddress), ([' '], "1")] "SEND"
      ⟨by decide, by decide, by decide, by decide, by decide⟩
      ⟨by decide, by decide, by decide, by decide, by decide⟩ (by decide),
    by decide⟩

/-! ## C17: encrypt and decrypt -/

/-- The cipher of `cipherChain` gives back what it encrypted. -/
theorem cipherChain_round_trip (plaintext key ciphertext : String)
    (h : cipherChain.aesEncrypt plaintext key = Except.ok ciphertext) :
    cipherChain.aesDecrypt ciphertext key = Except.ok plaintext := by
  have hc : key ++ plaintext = ciphertext := Except.ok.inj h
  subst hc
  show Except.ok (String.mk ((key ++ plaintext).data.drop key.length)) = Except.ok plaintext
  have hd : (key ++ plaintext).data.drop key.length = plaintext.data := by
    rw [String.data_append]
    exact List.drop_left _ _
  rw [hd]

/-- C17: `encryptPrivateKey` and `decryptPrivateKey` derive the same key, the
encryption key, a dash and the identity, and hand the ciphertext on as it is;
so with a cipher that gives back what it encrypted under the same key,
`decryptPrivateKey(encryptPrivateKey(k, id), id)` is `k` for every private-key
string `k` and identity `id`. -/
theorem encrypt_decrypt_round_trip (c : Chain) (k id ciphertext : String)
    (hcipher : ∀ plaintext key encrypted,
      c.aesEncrypt plaintext key = Except.ok encrypted →
      c.aesDecrypt encrypted key = Except.ok plaintext)
    (henc : WalletService.encryptPrivateKey c k id = Except.ok ciphertext) :
    WalletService.decryptPrivateKey c ciphertext id = Except.ok k ∧
    WalletService.encryptPrivateKey c k id =
      c.aesEncrypt k (c.encryptionKey ++ "-" ++ id) ∧
    WalletService.decryptPrivateKey c ciphertext id =
      c.aesDecrypt ciphertext (c.encryptionKey ++ "-" ++ id) :=
  ⟨hcipher k (WalletService.derivedKey c id) ciphertext henc, rfl, rfl⟩

/-- C17 with the cipher of `cipherChain`, for the key `0x01` of `+15550001`. -/
theorem encrypt_decrypt_round_trip_witness :
    WalletService.encryptPrivateKey cipherChain "0x01" "+15550001" =
      Except.ok "default-key-change-in-production-+155500010x01" ∧
    WalletService.decryptPrivateKey cipherChain
      "default-key-change-in-production-+155500010x01" "+15550001" = Except.ok "0x01" :=
  ⟨by rfl,
    (encrypt_decrypt_round_trip cipherChain "0x01" "+15550001"
      "default-key-change-in-production-+155500010x01" cipherChain_round_trip (by rfl)).1⟩

/-! ## C18: pending entries belong to wallets, and wallets stay -/

theorem SMSHandler.handleStart_store (c : Chain) (s : Store) (id : String) :
    (SMSHandler.handleStart c s id).store = s ∨
    (s.wallets.has id = false ∧
      ∃ record, (SMSHandler.handleStart c s id).store =
        { s with wallets := s.wallets.set id record }) := by
  unfold SMSHandler.handleStart
  by_cases hw : WalletService.hasWallet s.wallets id = true
  · left
    simp [hw]
  · have hw0 : s.wallets.has id = false := by
      simpa [WalletService.hasWallet] using hw
    simp only [hw, if_false]
    unfold WalletService.createWallet WalletService.createWalletBody
    simp only [hw0, if_false, Bool.false_eq_true]
    cases c.createRandom with
    | error m => left; rfl
    | ok v =>
      obtain ⟨address, privateKey⟩ := v
      simp only []
      cases WalletService.encryptPrivateKey c privateKey id with
      | error m => left; rfl
      | ok e =>
        right
        refine ⟨trivial, ⟨address, e, c.isoDate⟩, ?_⟩
        cases s
        rfl

theorem SMSHandler.handleBalance_store (c : Chain) (s : Store) (id : String) :
    (SMSHandler.handleBalance c s id).store = s := by
  unfold SMSHandler.handleBalance
  dsimp only
  split <;> rfl

theorem SMSHandler.handleWallet_store (s : Store) (id : String) :
    (SMSHandler.handleWallet s id).store = s := by
  unfold SMSHandler.handleWallet
  split <;> rfl

theorem SMSHandler.handleHistory_store (c : Chain) (s : Store) (id : String) :
    (SMSHandler.handleHistory c s id).store = s := by
  unfold SMSHandler.handleHistory
  dsimp only
  split <;> rfl

theorem SMSHandler.handleSend_store (c : Chain) (s : Store) (id : String)
    (parts : List String) :
    (SMSHandler.handleSend c s id parts).store = s ∨
    ∃ p : PendingTx, p.checked ∧
      (SMSHandler.handleSend c s id parts).store =
        { s with pendingTransactions := s.pendingTransactions.set id p } := by
  by_cases hlen : parts.length < 3
  · left
    rw [SMSHandler.handleSend_short c s id parts hlen]
  · by_cases hgood : startsWith0x (parts.getD 1 "") = true ∧ jsLength (parts.getD 1 "") = 42
    · rw [SMSHandler.handleSend_good_address c s id parts (not_lt.mp hlen) hgood.1 hgood.2]
      by_cases hamt : amountRejected (parts.getD 2 "") = true
      · left
        simp only [hamt, if_true]
      · right
        simp only [hamt, if_false]
        exact ⟨⟨parts.getD 1 "", parts.getD 2 "", c.now⟩,
          ⟨hgood.1, hgood.2, by simpa using hamt⟩, rfl⟩
    · left
      rw [SMSHandler.handleSend_bad_address c s id parts (not_lt.mp hlen) hgood]

theorem SMSHandler.handleConfirm_store (c : Chain) (s : Store) (id : String) :
    (SMSHandler.handleConfirm c s id).store = s ∨
    (SMSHandler.handleConfirm c s id).store =
      { s with pendingTransactions := s.pendingTransactions.delete id } := by
  cases hp : s.pendingTransactions.get id with
  | none =>
    left
    simp [SMSHandler.handleConfirm, hp]
  | some pending =>
    right
    by_cases ht : c.now - pending.timestamp > SMSHandler.ttlMs
    · rw [SMSHandler.handleConfirm_expired c s id pending hp ht]
    · rw [SMSHandler.handleConfirm_live c s id pending hp ht]

theorem SMSHandler.handleCancel_store (s : Store) (id : String) :
    (SMSHandler.handleCancel s id).store = s ∨
    (SMSHandler.handleCancel s id).store =
      { s with pendingTransactions := s.pendingTransactions.delete id } := by
  unfold SMSHandler.handleCancel
  split
  · left; rfl
  · right; rfl

/-- Every call of `processCommand` changes the state in one of the four ways of
`StoreStep`, or not at all. -/
theorem SMSHandler.processCommand_storeStep (c : Chain) (s : Store) (id message : String) :
    StoreStep s (SMSHandler.processCommand c s id message).store id := by
  rcases SMSHandler.processCommand_reply_store c s id message with h | h
  · exact Or.inl h.2
  · rw [h.2]
    by_cases hguard : SMSHandler.commandOf c (messageParts message) ≠ "HELP" ∧
        SMSHandler.commandOf c (messageParts message) ≠ "START"
    · by_cases hw : s.wallets.has id = true
      · unfold SMSHandler.dispatch
        split_ifs
        · exact absurd ‹_› hguard.2
        · exact Or.inl (SMSHandler.handleBalance_store c s id)
        · exact Or.inl (SMSHandler.handleWallet_store s id)
        · rcases SMSHandler.handleSend_store c s id (messageParts message) with h1 | h1
          · exact Or.inl h1
          · exact Or.inr (Or.inr (Or.inl ⟨hw, h1⟩))
        · rcases SMSHandler.handleConfirm_store c s id with h1 | h1
          · exact Or.inl h1
          · exact Or.inr (Or.inr (Or.inr h1))
        · rcases SMSHandler.handleCancel_store s id with h1 | h1
          · exact Or.inl h1
          · exact Or.inr (Or.inr (Or.inr h1))
        · exact Or.inl (SMSHandler.handleHistory_store c s id)
        · exact Or.inl rfl
        · exact Or.inl rfl
      · have hs : (SMSHandler.processCommand c s id message).store = s := by
          have hw0 : s.wallets.has id = false := by simpa using hw
          simp [SMSHandler.processCommand, hguard.1, hguard.2, WalletService.hasWallet, hw0]
        rw [← h.2, hs]
        exact Or.inl rfl
    · have hcmd : SMSHandler.commandOf c (messageParts message) = "HELP" ∨
          SMSHandler.commandOf c (messageParts message) = "START" := by
        by_contra hne
        push_neg at hne
        exact hguard hne
      rcases hcmd with hc | hc
      · rw [hc]
        exact Or.inl (by simp [SMSHandler.dispatch])
      · rw [hc]
        have hd : SMSHandler.dispatch c s id "START" (messageParts message) =
            SMSHandler.handleStart c s id := by simp [SMSHandler.dispatch]
        rw [hd]
        rcases SMSHandler.handleStart_store c s id with h1 | h1
        · exact Or.inl h1
        · exact Or.inr (Or.inl h1)

theorem JSMap.has_set_same {α : Type} (m : JSMap α) (k : String) (v : α) :
    (m.set k v).has k = true := by
  simp [JSMap.has, JSMap.get_set_same]

theorem JSMap.has_set_other {α : Type} (m : JSMap α) (k j : String) (v : α) (h : j ≠ k) :
    (m.set k v).has j = m.has j := by
  simp [JSMap.has, JSMap.get_set_other m k j v h]

theorem JSMap.has_of_get {α : Type} (m : JSMap α) (k : String) (v : α)
    (h : m.get k = some v) : m.has k = true := by
  simp [JSMap.has, h]

/-- A step keeps: an identity with a pending entry has a wallet record. -/
theorem StoreStep.pending_has_wallet {s s1 : Store} {id : String} (h : StoreStep s s1 id)
    (hinv : ∀ j, s.pendingTransactions.get j ≠ none → s.wallets.has j = true) :
    ∀ j, s1.pendingTransactions.get j ≠ none → s1.wallets.has j = true := by
  intro j hj
  rcases h with h | ⟨hw, record, h⟩ | ⟨hw, p, _, h⟩ | h
  · rw [h] at hj ⊢
    exact hinv j hj
  · rw [h] at hj ⊢
    by_cases hji : j = id
    · rw [hji]
      exact JSMap.has_set_same _ _ _
    · show (s.wallets.set id record).has j = true
      rw [JSMap.has_set_other _ _ _ _ hji]
      exact hinv j hj
  · rw [h] at hj ⊢
    by_cases hji : j = id
    · rw [hji]
      exact hw
    · have hj1 : (s.pendingTransactions.set id p).get j ≠ none := hj
      rw [JSMap.get_set_other _ _ _ _ hji] at hj1
      exact hinv j hj1
  · rw [h] at hj ⊢
    by_cases hji : j = id
    · have hj1 : (s.pendingTransactions.delete id).get j ≠ none := hj
      rw [hji, JSMap.get_delete_same] at hj1
      exact absurd rfl hj1
    · have hj1 : (s.pendingTransactions.delete id).get j ≠ none := hj
      rw [JSMap.get_delete_other _ _ _ hji] at hj1
      exact hinv j hj1

/-- A step keeps every wallet record as it is. -/
theorem StoreStep.wallet_kept {s s1 : Store} {id : String} (h : StoreStep s s1 id)
    (j : String) (record : WalletRecord) (hj : s.wallets.get j = some record) :
    s1.wallets.get j = some record := by
  rcases h with h | ⟨hw, r, h⟩ | ⟨_, p, _, h⟩ | h
  · rw [h]; exact hj
  · rw [h]
    have hji : j ≠ id := by
      intro e
      rw [e] at hj
      have := JSMap.has_of_get _ _ _ hj
      rw [hw] at this
      exact absurd this (by decide)
    show (s.wallets.set id r).get j = some record
    rw [JSMap.get_set_other _ _ _ _ hji]
    exact hj
  · rw [h]; exact hj
  · rw [h]; exact hj

/-- A step keeps: every pending entry passed the checks of `handleSend`. -/
theorem StoreStep.checked_kept {s s1 : Store} {id : String} (h : StoreStep s s1 id)
    (hinv : ∀ j p, s.pendingTransactions.get j = some p → p.checked) :
    ∀ j p, s1.pendingTransactions.get j = some p → p.checked := by
  intro j q hj
  rcases h with h | ⟨_, r, h⟩ | ⟨_, p, hp, h⟩ | h
  · rw [h] at hj
    exact hinv j q hj
  · rw [h] at hj
    exact hinv j q hj
  · rw [h] at hj
    have hj1 : (s.pendingTransactions.set id p).get j = some q := hj
    by_cases hji : j = id
    · rw [hji, JSMap.get_set_same] at hj1
      rw [← Option.some.inj hj1]
      exact hp
    · rw [JSMap.get_set_other _ _ _ _ hji] at hj1
      exact hinv j q hj1
  · rw [h] at hj
    have hj1 : (s.pendingTransactions.delete id).get j = some q := hj
    by_cases hji : j = id
    · rw [hji, JSMap.get_delete_same] at hj1
      exact absurd hj1 (by simp)
    · rw [JSMap.get_delete_other _ _ _ hji] at hj1
      exact hinv j q hj1

theorem runCommands_cons (s : Store) (m : Inbound) (rest : List Inbound) :
    runCommands s (m :: rest) =
      runCommands (SMSHandler.processCommand m.chain s m.phoneNumber m.message).store rest :=
  rfl

theorem runCommands_append (s : Store) (l1 l2 : List Inbound) :
    runCommands s (l1 ++ l2) = runCommands (runCommands s l1) l2 := by
  unfold runCommands
  rw [List.foldl_append]

theorem runCommands_pending_has_wallet (inbound : List Inbound) :
    ∀ s : Store, (∀ j, s.pendingTransactions.get j ≠ none → s.wallets.has j = true) →
      ∀ j, (runCommands s inbound).pendingTransactions.get j ≠ none →
        (runCommands s inbound).wallets.has j = true := by
  induction inbound with
  | nil => intro s h; exact h
  | cons m rest ih =>
    intro s h
    rw [runCommands_cons]
    exact ih _ ((SMSHandler.processCommand_storeStep m.chain s m.phoneNumber
      m.message).pending_has_wallet h)

theorem runCommands_wallet_kept (inbound : List Inbound) :
    ∀ (s : Store) (j : String) (record : WalletRecord), s.wallets.get j = some record →
      (runCommands s inbound).wallets.get j = some record := by
  induction inbound with
  | nil => intro s j record h; exact h
  | cons m rest ih =>
    intro s j record h
    rw [runCommands_cons]
    exact ih _ j record ((SMSHandler.processCommand_storeStep m.chain s m.phoneNumber
      m.message).wallet_kept j record h)

theorem runCommands_checked (inbound : List Inbound) :
    ∀ s : Store, (∀ j p, s.pendingTransactions.get j = some p → p.checked) →
      ∀ j p, (runCommands s inbound).pendingTransactions.get j = some p → p.checked := by
  induction inbound with
  | nil => intro s h; exact h
  | cons m rest ih =>
    intro s h
    rw [runCommands_cons]
    exact ih _ ((SMSHandler.processCommand_storeStep m.chain s m.phoneNumber
      m.message).checked_kept h)

/-- C18: in the state reached from two empty maps by any sequence of calls of
`processCommand`, whatever the identities, the messages and the answers of
the outside world, every identity with a pending entry has a wallet record;
and a wallet record present in a reached state is the record of that identity,
unchanged, in every state reached later. -/
theorem reachable_pending_has_wallet (inbound later : List Inbound) :
    (∀ id, (runCommands emptyStore inbound).pendingTransactions.get id ≠ none →
      (runCommands emptyStore inbound).wallets.has id = true) ∧
    (∀ id record, (runCommands emptyStore inbound).wallets.get id = some record →
      (runCommands emptyStore (inbound ++ later)).wallets.get id = some record) := by
  constructor
  · apply runCommands_pending_has_wallet inbound emptyStore
    intro j hj
    exact absurd rfl hj
  · intro id record h
    rw [runCommands_append]
    exact runCommands_wallet_kept later _ id record h

/-- C18 at the sample messages: after `START` and a valid `SEND`, `+15550001`
has a pending entry and a wallet record, and the record created by `START` is
still there after the two later messages. -/
theorem reachable_pending_has_wallet_witness :
    (runCommands emptyStore sampleInbound).pendingTransactions.get "+15550001" ≠ none ∧
    (runCommands emptyStore sampleInbound).wallets.has "+15550001" = true ∧
    (runCommands emptyStore (sampleInbound.take 1)).wallets.get "+15550001" =
      some ⟨"0xBBBBBBBBBBBBBBBBBBBBBBBBBBBBBBBBBBBBBBBB",
        "default-key-change-in-production-+15550001:0x01", "2024-01-01T00:00:00.000Z"⟩ ∧
    (runCommands emptyStore (sampleInbound.take 1 ++ sampleInbound.drop 1)).wallets.get
      "+15550001" =
      some ⟨"0xBBBBBBBBBBBBBBBBBBBBBBBBBBBBBBBBBBBBBBBB",
        "default-key-change-in-production-+15550001:0x01", "2024-01-01T00:00:00.000Z"⟩ :=
  ⟨by decide,
    (reachable_pending_has_wallet sampleInbound []).1 "+15550001" (by decide),
    by decide,
    (reachable_pending_has_wallet (sampleInbound.take 1) (sampleInbound.drop 1)).2
      "+15550001" _ (by decide)⟩

/-! ## C19: pending entries passed the checks of `SEND` -/

theorem WalletService.createWallet_log (c : Chain) (w : JSMap WalletRecord) (p : String) :
    (WalletService.createWallet c w p).1.log = (WalletService.createWalletBody c w p).1.log := by
  unfold WalletService.createWallet
  split
  · next h => rw [h]
  · rfl

theorem WalletService.createWallet_calls (c : Chain) (w : JSMap WalletRecord) (p : String) :
    sendTransactionCalls (WalletService.createWallet c w p).1.log = [] := by
  rw [WalletService.createWallet_log]
  unfold WalletService.createWalletBody
  dsimp only
  repeat' split
  all_goals rfl

theorem WalletService.getBalance_log (c : Chain) (w : JSMap WalletRecord) (p : String) :
    (WalletService.getBalance c w p).log = (WalletService.getBalanceBody c w p).log := by
  unfold WalletService.getBalance
  split
  · next h => rw [h]
  · rfl

theorem WalletService.getBalance_calls (c : Chain) (w : JSMap WalletRecord) (p : String) :
    sendTransactionCalls (WalletService.getBalance c w p).log = [] := by
  rw [WalletService.getBalance_log]
  unfold WalletService.getBalanceBody
  dsimp only
  repeat' split
  all_goals rfl

theorem WalletService.getTransactionHistory_calls (c : Chain) (w : JSMap WalletRecord)
    (p : String) :
    sendTransactionCalls (WalletService.getTransactionHistory c w p).2 = [] := by
  unfold WalletService.getTransactionHistory
  repeat' split
  all_goals simp [sendTransactionCalls]

theorem SMSHandler.handleStart_calls (c : Chain) (s : Store) (id : String) :
    sendTransactionCalls (SMSHandler.handleStart c s id).log = [] := by
  have hc := WalletService.createWallet_calls c s.wallets id
  unfold SMSHandler.handleStart
  split
  · rfl
  · dsimp only
    split <;> exact hc

theorem SMSHandler.handleBalance_calls (c : Chain) (s : Store) (id : String) :
    sendTransactionCalls (SMSHandler.handleBalance c s id).log = [] := by
  have hc := WalletService.getBalance_calls c s.wallets id
  unfold SMSHandler.handleBalance
  dsimp only
  split <;> exact hc

theorem SMSHandler.handleWallet_calls (s : Store) (id : String) :
    sendTransactionCalls (SMSHandler.handleWallet s id).log = [] := by
  unfold SMSHandler.handleWallet
  split <;> rfl

theorem SMSHandler.handleSend_calls (c : Chain) (s : Store) (id : String)
    (parts : List String) :
    sendTransactionCalls (SMSHandler.handleSend c s id parts).log = [] := by
  unfold SMSHandler.handleSend
  dsimp only
  repeat' split
  all_goals rfl

theorem SMSHandler.handleCancel_calls (s : Store) (id : String) :
    sendTransactionCalls (SMSHandler.handleCancel s id).log = [] := by
  unfold SMSHandler.handleCancel
  split <;> rfl

theorem SMSHandler.handleHistory_calls (c : Chain) (s : Store) (id : String) :
    sendTransactionCalls (SMSHandler.handleHistory c s id).log = [] := by
  have hc := WalletService.getTransactionHistory_calls c s.wallets id
  unfold SMSHandler.handleHistory
  dsimp only
  split <;> exact hc

/-- The calls of `sendTransaction` made by `handleConfirm`: none, or one with
the destination and the amount of the entry it found. -/
theorem SMSHandler.handleConfirm_calls (c : Chain) (s : Store) (id : String) :
    sendTransactionCalls (SMSHandler.handleConfirm c s id).log = [] ∨
    ∃ p, s.pendingTransactions.get id = some p ∧
      sendTransactionCalls (SMSHandler.handleConfirm c s id).log =
        [(id, p.toAddress, p.amount)] := by
  cases hp : s.pendingTransactions.get id with
  | none =>
    left
    simp [SMSHandler.handleConfirm, hp, sendTransactionCalls]
  | some pending =>
    by_cases ht : c.now - pending.timestamp > SMSHandler.ttlMs
    · left
      rw [SMSHandler.handleConfirm_expired c s id pending hp ht]
      rfl
    · right
      refine ⟨pending, rfl, ?_⟩
      rw [SMSHandler.handleConfirm_live c s id pending hp ht]
      simp only [sendTransactionCalls_send, WalletService.sendTransaction_calls]

theorem SMSHandler.dispatch_calls (c : Chain) (s : Store) (id cmd : String)
    (parts : List String) :
    sendTransactionCalls (SMSHandler.dispatch c s id cmd parts).log = [] ∨
    ∃ p, s.pendingTransactions.get id = some p ∧
      sendTransactionCalls (SMSHandler.dispatch c s id cmd parts).log =
        [(id, p.toAddress, p.amount)] := by
  unfold SMSHandler.dispatch
  split_ifs
  · exact Or.inl (SMSHandler.handleStart_calls c s id)
  · exact Or.inl (SMSHandler.handleBalance_calls c s id)
  · exact Or.inl (SMSHandler.handleWallet_calls s id)
  · exact Or.inl (SMSHandler.handleSend_calls c s id parts)
  · exact SMSHandler.handleConfirm_calls c s id
  · exact Or.inl (SMSHandler.handleCancel_calls s id)
  · exact Or.inl (SMSHandler.handleHistory_calls c s id)
  · exact Or.inl rfl
  · exact Or.inl rfl

/-- The calls of `sendTransaction` made by `processCommand` are those of the
`switch`. -/
theorem SMSHandler.processCommand_calls_eq (c : Chain) (s : Store) (id message : String) :
    sendTransactionCalls (SMSHandler.processCommand c s id message).log = [] ∨
    sendTransactionCalls (SMSHandler.processCommand c s id message).log =
      sendTransactionCalls (SMSHandler.dispatch c s id
        (SMSHandler.commandOf c (messageParts message)) (messageParts message)).log := by
  unfold SMSHandler.processCommand
  dsimp only
  split_ifs
  · left; rfl
  · right
    cases (SMSHandler.dispatch c s id (SMSHandler.commandOf c (messageParts message))
      (messageParts message)).result <;> rfl
  · right
    cases (SMSHandler.dispatch c s id (SMSHandler.commandOf c (messageParts message))
      (messageParts message)).result <;> rfl

/-- Every call of `sendTransaction` made by `processCommand` carries the
destination and the amount of the pending entry of the identity. -/
theorem SMSHandler.processCommand_calls (c : Chain) (s : Store) (id message : String) :
    sendTransactionCalls (SMSHandler.processCommand c s id message).log = [] ∨
    ∃ p, s.pendingTransactions.get id = some p ∧
      sendTransactionCalls (SMSHandler.processCommand c s id message).log =
        [(id, p.toAddress, p.amount)] := by
  rcases SMSHandler.processCommand_calls_eq c s id message with h | h
  · exact Or.inl h
  · rw [h]
    exact SMSHandler.dispatch_calls c s id _ _

/-- C19: in the state reached from two empty maps by any sequence of calls of
`processCommand`, every pending entry has a destination that starts with `0x`
and has length 42 and an amount that passed the amount check of `handleSend`;
and every call of `walletService.sendTransaction` that a further
`processCommand` makes from that state carries the identity, the destination
and the amount of the pending entry of that identity. -/
theorem reachable_pending_entries_are_checked (inbound : List Inbound) :
    (∀ id p, (runCommands emptyStore inbound).pendingTransactions.get id = some p →
      startsWith0x p.toAddress = true ∧ jsLength p.toAddress = 42 ∧
        amountRejected p.amount = false) ∧
    (∀ (c : Chain) (id message : String) (call : String × String × String),
      call ∈ sendTransactionCalls
        (SMSHandler.processCommand c (runCommands emptyStore inbound) id message).log →
      ∃ p, (runCommands emptyStore inbound).pendingTransactions.get id = some p ∧
        call = (id, p.toAddress, p.amount) ∧
        startsWith0x p.toAddress = true ∧ jsLength p.toAddress = 42 ∧
        amountRejected p.amount = false) := by
  have hchecked : ∀ id p,
      (runCommands emptyStore inbound).pendingTransactions.get id = some p → p.checked := by
    apply runCommands_checked inbound emptyStore
    intro j p hj
    exact absurd hj (by simp [emptyStore, JSMap.empty, JSMap.get, JSMap.lookup])
  refine ⟨hchecked, ?_⟩
  intro c id message call hcall
  rcases SMSHandler.processCommand_calls c (runCommands emptyStore inbound) id message with
    h | ⟨p, hp, h⟩
  · rw [h] at hcall
    exact absurd hcall (List.not_mem_nil _)
  · rw [h] at hcall
    exact ⟨p, hp, List.mem_singleton.mp hcall, hchecked id p hp⟩

/-- C19 at the sample messages: the entry of `+15550001` is the destination and
the amount of its `SEND`, and the `CONFIRM` processed next hands exactly these
to `walletService.sendTransaction`. -/
theorem reachable_pending_entries_are_checked_witness :
    (runCommands emptyStore sampleInbound).pendingTransactions.get "+15550001" =
      some ⟨sampleAddress, "1", 1000000⟩ ∧
    (startsWith0x sampleAddress = true ∧ jsLength sampleAddress = 42 ∧
      amountRejected "1" = false) ∧
    sendTransactionCalls
      (SMSHandler.processCommand sampleChain (runCommands emptyStore sampleInbound)
        "+15550001" "CONFIRM").log = [("+15550001", sampleAddress, "1")] :=
  ⟨by decide,
    (reachable_pending_entries_are_checked sampleInbound).1 "+15550001"
      ⟨sampleAddress, "1", 1000000⟩ (by decide),
    by decide⟩

/-! ## Reached maps hold at most one entry per identity

The hypothesis of C14 on the number of entries holds in every state reached
from two empty maps. -/

/-- A step keeps: each map holds at most one entry under each key. -/
theorem StoreStep.count_kept {s s1 : Store} {id : String} (h : StoreStep s s1 id)
    (hinv : ∀ j, s.wallets.count j ≤ 1 ∧ s.pendingTransactions.count j ≤ 1) :
    ∀ j, s1.wallets.count j ≤ 1 ∧ s1.pendingTransactions.count j ≤ 1 := by
  intro j
  rcases h with h | ⟨_, record, h⟩ | ⟨_, p, _, h⟩ | h
  · rw [h]
    exact hinv j
  · rw [h]
    refine ⟨?_, (hinv j).2⟩
    show (s.wallets.set id record).count j ≤ 1
    by_cases hji : j = id
    · rw [hji, JSMap.count_set_same _ _ _ (hinv id).1]
    · rw [JSMap.count_set_other _ _ _ _ hji]
      exact (hinv j).1
  · rw [h]
    refine ⟨(hinv j).1, ?_⟩
    show (s.pendingTransactions.set id p).count j ≤ 1
    by_cases hji : j = id
    · rw [hji, JSMap.count_set_same _ _ _ (hinv id).2]
    · rw [JSMap.count_set_other _ _ _ _ hji]
      exact (hinv j).2
  · rw [h]
    exact ⟨(hinv j).1, le_trans (JSMap.count_delete_le _ _ _) (hinv j).2⟩

theorem runCommands_count (inbound : List Inbound) :
    ∀ s : Store, (∀ j, s.wallets.count j ≤ 1 ∧ s.pendingTransactions.count j ≤ 1) →
      ∀ j, (runCommands s inbound).wallets.count j ≤ 1 ∧
        (runCommands s inbound).pendingTransactions.count j ≤ 1 := by
  induction inbound with
  | nil => intro s h; exact h
  | cons m rest ih =>
    intro s h
    rw [runCommands_cons]
    exact ih _ ((SMSHandler.processCommand_storeStep m.chain s m.phoneNumber
      m.message).count_kept h)

/-- In every state reached from two empty maps, each map holds at most one
entry per identity. -/
theorem reachable_maps_have_unique_keys (inbound : List Inbound) (id : String) :
    (runCommands emptyStore inbound).wallets.count id ≤ 1 ∧
    (runCommands emptyStore inbound).pendingTransactions.count id ≤ 1 :=
  runCommands_count inbound emptyStore (fun _ => ⟨Nat.zero_le _, Nat.zero_le _⟩) id

end Baintwallet
